import Mathlib

/-!
Verification of the PolyScalping analysis server (`polyscalping/server.py`).

This file is a shallow embedding of the quantitative models, the strategy
selector, the trending-score engine, the keyword derivation and the
ten-step analysis pipeline of the server, together with theorems checking
the specification's claims about them.

Numeric conventions: Python floats are modelled by exact rationals `ℚ`
(and by `ℝ` for the transcendental Black-Scholes model); Python's
`round(x, n)` is modelled by `pround n`, decimal rounding built on
Mathlib's `round` (round-half-up; Python rounds half to even on binary
floats, the two agree away from exact decimal ties, which no claim
touches).  Dict keys that are only present on some code paths are
modelled as `Option` fields.
-/

namespace PolyScalping

open scoped BigOperators

open Filter Topology

/-- Python `round(x, n)`: round to `n` decimal places. -/
def pround {α : Type} [LinearOrderedField α] [FloorRing α] (n : ℕ) (x : α) : α :=
  ((round (x * 10 ^ n) : ℤ) : α) / 10 ^ n

/-- One side of a binary market. -/
inductive Side
  | yes
  | no
deriving Repr, DecidableEq

/-- Result dict of `detect_arbitrage` (server.py lines 228-263). -/
structure ArbResult where
  verdict : String
  color : String
  recommendation : String
  edge_absolute : ℚ
  edge_percent : ℚ
  polymarket_yes : ℚ
  true_probability : ℚ
  mispricing : String
deriving Repr, DecidableEq

/-- `detect_arbitrage(poly_price, true_prob)` (server.py lines 228-263). -/
def detect_arbitrage (poly_price true_prob : ℚ) : ArbResult :=
  let edge := |poly_price - true_prob|
  let edge_pct := if true_prob > 0 then edge / true_prob * 100 else 0
  let vc : String × String :=
    if edge ≥ 8 / 100 then ("ARBITRAGE", "purple")
    else if edge < 2 / 100 then ("FAIR", "yellow")
    else if poly_price < true_prob then ("CHEAP", "green")
    else ("EXPENSIVE", "red")
  let rd : String × String :=
    if edge < 1 / 100 then ("PASS", "fair")
    else if poly_price < true_prob then ("BUY YES", "underpriced")
    else ("BUY NO", "overpriced")
  { verdict := vc.1
    color := vc.2
    recommendation := rd.1
    edge_absolute := pround 4 edge
    edge_percent := pround 2 edge_pct
    polymarket_yes := poly_price
    true_probability := true_prob
    mispricing := rd.2 }

/-- Result dict for one side of `kelly_sizing` (server.py lines 268-366).
Keys present only on one of the two code paths (rejected vs. sized) are
`Option` fields; `none` models an absent dict key. -/
structure KellySide where
  price : Option ℚ := none
  decimal_odds : Option ℚ := none
  true_prob : Option ℚ := none
  full_kelly_pct : Option ℚ := none
  aggressive_kelly_pct : Option ℚ := none
  kelly_pct : Option ℚ := none
  ev : Option ℚ := none
  reason : Option String := none
  bet_amount : ℚ
  ev_per_dollar : Option ℚ := none
  roi_if_win : Option ℚ := none
  position_pct : ℚ
  confidence : String
deriving Repr, DecidableEq

/-- The dict stored for a rejected side: price outside (0,1) or
probability ≤ 0 (server.py lines 286-288). -/
def invalidKelly : KellySide :=
  { kelly_pct := some 0
    bet_amount := 0
    ev := some 0
    reason := some "Invalid"
    position_pct := 0
    confidence := "none" }

/-- Loop body of `kelly_sizing` for one side (server.py lines 278-364). -/
def kellySide (bankroll true_prob poly_price : ℚ) (side : Side) : KellySide :=
  let price := match side with | .yes => poly_price | .no => 1 - poly_price
  let p := match side with | .yes => true_prob | .no => 1 - true_prob
  if price ≤ 0 ∨ 1 ≤ price ∨ p ≤ 0 then invalidKelly
  else
    let decimal_odds := 1 / price
    let b := decimal_odds - 1
    let q := 1 - p
    let full_kelly0 := if b > 0 then (b * p - q) / b else 0
    let full_kelly := max 0 (min full_kelly0 (35 / 100))
    let ev := p * (decimal_odds - 1) - q
    let roi_if_win := 1 / price - 1
    let edge := |poly_price - true_prob|
    let pc : ℚ × String :=
      if full_kelly > 1 / 1000 then
        (full_kelly * (75 / 100),
          if full_kelly * (75 / 100) ≥ 1 / 10 then "high" else "medium")
      else
        let base : ℚ × String :=
          if price ≥ 80 / 100 then (20 / 100, "high")
          else if price ≥ 65 / 100 then (15 / 100, "high")
          else if price ≥ 50 / 100 then (12 / 100, "medium")
          else if price ≥ 30 / 100 then (8 / 100, "medium")
          else if price ≥ 10 / 100 then (5 / 100, "low")
          else (2 / 100, "low")
        let b1 : ℚ × String :=
          if edge ≥ 5 / 100 then
            (min (base.1 * (13 / 10)) (30 / 100),
              if base.2 = "low" then "medium" else base.2)
          else base
        if edge ≥ 1 / 10 then (min (b1.1 * (15 / 10)) (35 / 100), "high") else b1
    let bet0 := pround 2 (bankroll * pc.1)
    let bet := max 5 (min bet0 (bankroll * (35 / 100)))
    let position_pct := if bankroll > 0 then bet / bankroll else 0
    { price := some (pround 4 price)
      decimal_odds := some (pround 2 decimal_odds)
      true_prob := some (pround 4 p)
      full_kelly_pct := some (pround 2 (full_kelly * 100))
      aggressive_kelly_pct := some (pround 2 (position_pct * 100))
      bet_amount := pround 2 bet
      ev_per_dollar := some (pround 4 ev)
      roi_if_win := some (pround 2 (roi_if_win * 100))
      position_pct := pround 2 (position_pct * 100)
      confidence := pc.2 }

/-- Result of `kelly_sizing` for both sides. -/
structure KellyResults where
  YES : KellySide
  NO : KellySide
deriving Repr, DecidableEq

/-- `kelly_sizing(bankroll, true_prob, poly_price)` (server.py lines 268-366). -/
def kelly_sizing (bankroll true_prob poly_price : ℚ) : KellyResults :=
  { YES := kellySide bankroll true_prob poly_price .yes
    NO := kellySide bankroll true_prob poly_price .no }

/-- Dict access `kelly[side]`. -/
def KellyResults.side (k : KellyResults) : Side → KellySide
  | .yes => k.YES
  | .no => k.NO

/-- Result dict of `polyscalping_roi` (server.py lines 371-386). -/
structure RoiResult where
  buy_price : ℚ
  sell_price : ℚ
  num_shares : ℚ
  buy_cost : ℚ
  sell_revenue : ℚ
  net_profit : ℚ
  roi_percent : ℚ
deriving Repr, DecidableEq

/-- `polyscalping_roi(buy_price, sell_price, num_shares)` (server.py lines 371-386). -/
def polyscalping_roi (buy_price sell_price num_shares : ℚ) : RoiResult :=
  let buy_cost := buy_price * num_shares
  let sell_revenue := sell_price * num_shares
  let net_profit := sell_revenue - buy_cost
  let roi := if buy_cost > 0 then net_profit / buy_cost * 100 else 0
  { buy_price := buy_price
    sell_price := sell_price
    num_shares := num_shares
    buy_cost := pround 2 buy_cost
    sell_revenue := pround 2 sell_revenue
    net_profit := pround 2 net_profit
    roi_percent := pround 2 roi }

/-- A raw market listing, as consumed by the trending engine after its
numeric fields have been parsed (`compute_polysnap_score` /
`get_trending_markets` read them via `float(market.get(...) or 0)` and
`json.loads(outcomePrices)[0]`). -/
structure TrendMarket where
  question : String
  yes_price : ℚ
  volume : ℚ
  volume_24h : ℚ
  liquidity : ℚ
  spread : ℚ
  oneDayPriceChange : ℚ
deriving Repr, DecidableEq

/-- `compute_polysnap_score(market)` (server.py lines 1196-1281). -/
def compute_polysnap_score (m : TrendMarket) : ℚ :=
  let yes_price := m.yes_price
  let volume := m.volume
  let volume_24h := m.volume_24h
  let liquidity := m.liquidity
  let spread := m.spread
  let price_change := |m.oneDayPriceChange|
  let cheap_side := min yes_price (1 - yes_price)
  let uncertainty_score :=
    if cheap_side ≤ 10 / 100 then cheap_side * 100
    else if cheap_side ≤ 25 / 100 then 15 + (cheap_side - 10 / 100) * 100
    else if cheap_side ≤ 40 / 100 then 25 + (40 / 100 - cheap_side) * 33
    else 20
  let potential_roi := (1 / max cheap_side (5 / 100) - 1) * 100
  let roi_score := min (potential_roi / 300) 1 * 35
  let volatility_score := min (price_change * 100) 15
  let liq_score :=
    if liquidity < 1000 then liquidity / 1000 * 5
    else if liquidity < 10000 then 5 + (liquidity - 1000) / 9000 * 5
    else 10
  let activity_ratio := volume_24h / max volume 1
  let activity_score := min (activity_ratio * 100) 10
  let spread_penalty := min (spread * 100) 10
  let sure_thing_penalty : ℚ :=
    if cheap_side < 8 / 100 then 20 else if cheap_side < 12 / 100 then 10 else 0
  let total_score :=
    uncertainty_score + roi_score + volatility_score + liq_score +
      activity_score - spread_penalty - sure_thing_penalty
  pround 1 (max total_score 0)

/-- The verdict tag computed per market in `get_trending_markets`
(server.py lines 1302-1325). -/
def trendVerdict (m : TrendMarket) : String :=
  let cheap_side := min m.yes_price (1 - m.yes_price)
  let potential_roi := (1 / max cheap_side (5 / 100) - 1) * 100
  let price_change := |m.oneDayPriceChange|
  let is_uncertain := 12 / 100 ≤ cheap_side ∧ cheap_side ≤ 42 / 100
  let is_high_roi := potential_roi ≥ 150
  let is_volatile := price_change ≥ 2 / 100
  let is_not_dead := m.volume_24h ≥ 100
  if is_uncertain ∧ is_high_roi ∧ is_not_dead then "HOT"
  else if is_uncertain ∧ (is_high_roi ∨ is_volatile) then "WARM"
  else if cheap_side < 10 / 100 then "OBVIOUS"
  else "COOL"

/-- ASCII letter test, the character class of the regex `[A-Za-z]`. -/
def isAsciiLetter (c : Char) : Bool :=
  ('A' ≤ c && c ≤ 'Z') || ('a' ≤ c && c ≤ 'z')

/-- ASCII uppercase test, the character class of the regex `[A-Z]`. -/
def isUpperLetter (c : Char) : Bool :=
  'A' ≤ c && c ≤ 'Z'

/-- Python `str.lower()` restricted to ASCII (event titles and the fixed
keyword sets are ASCII). -/
def asciiLower (c : Char) : Char :=
  if 'A' ≤ c ∧ c ≤ 'Z' then Char.ofNat (c.toNat + 32) else c

/-- Lower-case a string, see `asciiLower`. -/
def strLower (s : String) : String :=
  ⟨s.toList.map asciiLower⟩

/-- Does `hay` start with `needle`? -/
def startsWithB : List Char → List Char → Bool
  | [], _ => true
  | _ :: _, [] => false
  | a :: as, b :: bs => a == b && startsWithB as bs

/-- Substring test over character lists. -/
def containsListB (needle : List Char) : List Char → Bool
  | [] => needle.isEmpty
  | c :: cs => startsWithB needle (c :: cs) || containsListB needle cs

/-- Python substring test `needle in hay`. -/
def substrB (needle hay : String) : Bool :=
  containsListB needle.toList hay.toList

/-- Scanner for maximal ASCII-letter runs; `cur` is the current run,
reversed. -/
def runsAux : List Char → List Char → List (List Char)
  | [], cur => if cur.isEmpty then [] else [cur.reverse]
  | c :: cs, cur =>
    if isAsciiLetter c then runsAux cs (c :: cur)
    else if cur.isEmpty then runsAux cs [] else cur.reverse :: runsAux cs []

/-- Maximal runs of ASCII letters in a character list; the matches of the
regex `[A-Za-z]+`. -/
def letterRuns (l : List Char) : List (List Char) :=
  runsAux l []

/-- `re.findall(r'[A-Za-z]{3,}', s)`: every maximal letter run of length
at least 3, in order. -/
def titleWords (s : String) : List String :=
  ((letterRuns s.toList).filter (fun r => 3 ≤ r.length)).map (fun r => ⟨r⟩)

/-- The stop-word set of step 5 (server.py line 963). -/
def skip_words : List String :=
  ["will", "the", "and", "for", "that", "this", "are", "was",
   "above", "below", "close"]

/-- Regex match attempt of `\(([A-Z]{1,5})\)` at one position: an opening
parenthesis followed by a maximal run of 1-5 uppercase letters and a
closing parenthesis. -/
def tickerAt : List Char → Option String
  | '(' :: rest =>
    let u := rest.takeWhile isUpperLetter
    if 1 ≤ u.length ∧ u.length ≤ 5 then
      match rest.drop u.length with
      | ')' :: _ => some ⟨u⟩
      | _ => none
    else none
  | _ => none

/-- Leftmost match of `re.search(r"\(([A-Z]{1,5})\)", s)` over a
character list. -/
def tickerSearch : List Char → Option String
  | [] => none
  | c :: cs =>
    match tickerAt (c :: cs) with
    | some t => some t
    | none => tickerSearch cs

/-- `extract_ticker(event_title)` (server.py lines 176-179). -/
def extract_ticker (event_title : String) : Option String :=
  tickerSearch event_title.toList

/-- The sports keyword list of `is_sports_event` (server.py lines 183-186). -/
def sports_keywords : List String :=
  ["vs", "nba", "nfl", "mlb", "nhl", "ufc", "game", "match",
   "bulls", "lakers", "celtics", "warriors", "pacers", "cavaliers",
   "hawks", "heat", "knicks", "nets", "sixers", "raptors",
   "super bowl", "championship", "playoff", "finals"]

/-- `is_sports_event(title)` (server.py lines 181-188). -/
def is_sports_event (title : String) : Bool :=
  sports_keywords.any (fun kw => substrB kw (strLower title))

/-- The keyword list assembled in step 5 of `run_full_analysis` before
the Kalshi search (server.py lines 962-966): title words of length ≥ 3,
stop-words removed, first 5 kept, then the extracted ticker inserted at
the front when present. -/
def searchKeywords (title : String) (ticker : Option String) : List String :=
  let title_words := titleWords title
  let kws := (title_words.filter
    (fun w => ¬ skip_words.contains (strLower w))).take 5
  match ticker with
  | some t => t :: kws
  | none => kws

/-- Step 5's keywords as a function of the event title alone. -/
def step5Keywords (title : String) : List String :=
  searchKeywords title (extract_ticker title)

/-- A market parsed by `fetch_polymarket_event` (server.py lines 405-437).
`clobTokenIds` holds the JSON-decoded token-id list (a failed decode or a
missing field is the empty list, matching the `except: continue` and
length guard downstream). -/
structure Market where
  id : String
  question : String
  strike : ℚ
  yes_price : ℚ
  no_price : ℚ
  volume : ℚ
  liquidity : ℚ
  spread : ℚ
  clobTokenIds : List String
  slug : String
  endDate : String
deriving Repr, DecidableEq

/-- Event dict returned by `fetch_polymarket_event` (server.py lines
441-452); image and description omitted, no claim reads them. -/
structure Event' where
  event_title : String
  event_volume : ℚ
  event_liquidity : ℚ
  event_end : String
  event_active : Bool
  event_closed : Bool
  volume_24h : ℚ
  markets : List Market
deriving Repr, DecidableEq

/-- The fields of `fetch_stock_data`'s return value that the pipeline
reads (server.py lines 501-511). -/
structure StockQuote where
  ticker : String
  spot_price : ℚ
  implied_volatility : ℚ
deriving Repr, DecidableEq

/-- The `polymarket` sub-dict of a per-market analysis (server.py lines
940-946). -/
structure PMInfo where
  yes_price : ℚ
  no_price : ℚ
  volume : ℚ
  liquidity : ℚ
  spread : ℚ
deriving Repr, DecidableEq

/-- The `black_scholes` sub-dict of a per-market analysis restricted to
the fields every branch carries (server.py lines 920-930); the
strike-based branch's value of `true_probability` is the rounded output
of the real-valued model `black_scholes_prob` below, supplied to the
rational pipeline as the oracle argument of `analyzeMarket`. -/
structure BSInfo where
  spot : ℚ
  strike : ℚ
  iv : ℚ
  days_to_expiry : ℚ
  true_probability : ℚ
  model : String
deriving Repr, DecidableEq

/-- One entry of `all_analysis` built in step 3 (server.py lines 937-952). -/
structure Analysis where
  strike : ℚ
  question : String
  polymarket : PMInfo
  black_scholes : BSInfo
  arbitrage : ArbResult
  kelly : KellyResults
  roi_yes_wins : Option RoiResult
  roi_no_wins : Option RoiResult
deriving Repr, DecidableEq

/-- Step 3 of `run_full_analysis` for one market (server.py lines
916-952).  `bsOracle spot strike iv days` stands for the
`true_probability` field of `black_scholes_prob(spot, strike, iv, days,
"above")`, the one real-valued (transcendental) computation of the
pipeline; it is abstracted so the pipeline stays executable over `ℚ`,
and is modelled exactly by `black_scholes_prob` below. -/
def analyzeMarket (bsOracle : ℚ → ℚ → ℚ → ℚ → ℚ)
    (spot iv days_left budget : ℚ) (has_strikes : Bool) (m : Market) : Analysis :=
  let strike := m.strike
  let yes_price := m.yes_price
  let bs : BSInfo :=
    if has_strikes ∧ strike > 0 ∧ spot > 0 then
      { spot := spot, strike := strike, iv := iv, days_to_expiry := days_left,
        true_probability := bsOracle spot strike iv days_left,
        model := "Black-Scholes" }
    else
      { spot := spot, strike := strike, iv := iv, days_to_expiry := days_left,
        true_probability := if yes_price > 0 then yes_price else 1 / 2,
        model := "Market-Implied" }
  let true_prob := bs.true_probability
  { strike := strike
    question := m.question
    polymarket :=
      { yes_price := yes_price, no_price := m.no_price, volume := m.volume,
        liquidity := m.liquidity, spread := m.spread }
    black_scholes := bs
    arbitrage := detect_arbitrage yes_price true_prob
    kelly := kelly_sizing budget true_prob yes_price
    roi_yes_wins := if yes_price > 0 then some (polyscalping_roi yes_price 1 100) else none
    roi_no_wins := if yes_price < 1 then some (polyscalping_roi (1 - yes_price) 1 100) else none }

/-- The composite score of one (market, side) candidate in step 8
(server.py lines 988-1030). -/
def candScore (budget : ℚ) (m : Analysis) (side : Side) : ℚ :=
  let vol := m.polymarket.volume
  let k := m.kelly.side side
  let ev := k.ev_per_dollar.getD 0
  let roi := k.roi_if_win.getD 0
  let price := k.price.getD (1 / 2)
  let bet := k.bet_amount
  let prob_score := price * 40
  let expected_return := if roi > 0 then bet * (roi / 100) * price else 0
  let return_score := min (expected_return / 10) 20
  let ev_score := max (ev * 50) 0
  let vol_score := if vol = 0 then 0 else min (vol / 3000) 8
  let pos_score := if budget > 0 then min (bet / (budget * (5 / 100))) 5 else 0
  let roi_score : ℚ :=
    if 5 ≤ roi ∧ roi ≤ 100 then 10
    else if 100 < roi ∧ roi ≤ 300 then 5
    else if roi > 300 then 1
    else 3
  prob_score + return_score + ev_score + vol_score + pos_score + roi_score

/-- Loop state of the best-opportunity search (server.py lines 983-986). -/
structure BestState where
  best_score : ℚ
  best_ev : ℚ
  best : Option (Analysis × Side)
deriving Repr, DecidableEq

/-- One iteration of the inner side loop of the best-opportunity search
(server.py lines 991-1036): replace the running best exactly when the
candidate's score is strictly larger. -/
def considerSide (budget : ℚ) (m : Analysis) (st : BestState) (side : Side) :
    BestState :=
  let total_score := candScore budget m side
  if total_score > st.best_score then
    { best_score := total_score,
      best_ev := (m.kelly.side side).ev_per_dollar.getD 0,
      best := some (m, side) }
  else st

/-- One iteration of the outer market loop: YES then NO. -/
def considerMarket (budget : ℚ) (st : BestState) (m : Analysis) : BestState :=
  [Side.yes, Side.no].foldl (considerSide budget m) st

/-- The best-opportunity search over all (market, side) pairs, markets in
list order and YES before NO, keeping the first strict maximum
(server.py lines 983-1036). -/
def selectLoop (budget : ℚ) (analyses : List Analysis) : BestState :=
  analyses.foldl (considerMarket budget)
    { best_score := -999, best_ev := 0, best := none }

/-- The `strategy` dict (server.py lines 1092-1125).  The short
differentiating label `best_market_short` (`extract_answer_name`) is
omitted; no claim concerns it. -/
structure Strategy where
  best_market : Option String
  best_side : Option Side
  best_ev : ℚ
  is_multi_choice : Bool
  num_markets : ℕ
  recommended_position : ℚ
  position_pct : ℚ
  confidence : String
  max_loss : ℚ
  potential_profit : ℚ
  risk_reward : ℚ
  entry_price : Option ℚ
  roi_if_win : Option ℚ
deriving Repr, DecidableEq

/-- Assembly of the `strategy` dict from the selector state (server.py
lines 1085-1125).  Note `k.get("position_pct", ...)` always finds the
key, both sizing branches store it, so the recomputed default is dead
code and the stored value is copied unchanged. -/
def mkStrategy (budget : ℚ) (analyses : List Analysis) : Strategy :=
  let st := selectLoop budget analyses
  let base : Strategy :=
    { best_market := st.best.map (fun c => c.1.question)
      best_side := st.best.map (fun c => c.2)
      best_ev := st.best_ev
      is_multi_choice := analyses.length > 1
      num_markets := analyses.length
      recommended_position := 0
      position_pct := 0
      confidence := "none"
      max_loss := 0
      potential_profit := 0
      risk_reward := 0
      entry_price := none
      roi_if_win := none }
  match st.best with
  | none => base
  | some (m, side) =>
    let k := m.kelly.side side
    let position0 := k.bet_amount
    let position := if position0 ≤ 0 then pround 2 (budget * (5 / 100)) else position0
    let price := k.price.getD (1 / 2)
    let potential_profit :=
      if price > 0 then pround 2 (position * (1 / price - 1)) else 0
    let risk_reward :=
      if price > 0 ∧ position > 0 then pround 2 (potential_profit / position) else 0
    { base with
      recommended_position := position
      position_pct := k.position_pct
      confidence := k.confidence
      max_loss := position
      entry_price := some price
      roi_if_win := some (k.roi_if_win.getD 0)
      potential_profit := potential_profit
      risk_reward := risk_reward }

/-- Outcome of the sports-odds collector call (`fetch_sports_odds`,
server.py lines 519-580): every internal failure (missing key, non-2xx,
unmatched sport, exception) returns an error dict with an empty odds
list; success returns the matched sport and its games.  The HTTP traffic
itself is environmental. -/
inductive SportsFetch
  | failure (msg : String)
  | matched (sport : String) (games total : ℕ)
deriving Repr, DecidableEq

/-- The `sports_odds` sub-object stored by step 4: `{}` when the event is
not sports-related, otherwise the collector's return value. -/
inductive SportsOddsResult
  | empty
  | failure (msg : String)
  | matched (sport : String) (games total : ℕ)
deriving Repr, DecidableEq

/-- One Kalshi event as read by `fetch_kalshi_markets` (server.py lines
605-613). -/
structure KalshiEvent where
  event_ticker : String
  title : String
  category : String
deriving Repr, DecidableEq

/-- Environmental outcome of the Kalshi HTTP call (server.py lines
596-598): an exception, a non-200 response, or the decoded event list. -/
inductive KalshiFetch
  | exc (msg : String)
  | non200
  | ok (events : List KalshiEvent)
deriving Repr, DecidableEq

/-- Result dict of `fetch_kalshi_markets` (server.py lines 585-624);
`matching_markets` (the raw matching event dicts) has the same elements
as `related_events` and is represented by it. -/
structure KalshiResult where
  matching_markets_found : Bool
  related_events : List KalshiEvent
  conclusion : String
  error : Option String
deriving Repr, DecidableEq

/-- `fetch_kalshi_markets(search_keywords)` (server.py lines 585-624)
with the HTTP outcome as a parameter.  On an exception the partially
built result (no conclusion set) gains an `error` key; on a non-200
response the loop is skipped and the no-match conclusion is stored. -/
def fetch_kalshi_markets (outcome : KalshiFetch)
    (search_keywords : List String) : KalshiResult :=
  let noMatch := "No matching markets found on Kalshi. Polymarket is the only venue."
  match outcome with
  | .exc m =>
    { matching_markets_found := false, related_events := [],
      conclusion := "", error := some m }
  | .non200 =>
    { matching_markets_found := false, related_events := [],
      conclusion := noMatch, error := none }
  | .ok events =>
    let keywords_lower := search_keywords.map strLower
    let rel := events.filter (fun e =>
      ¬ keywords_lower.isEmpty ∧
        keywords_lower.any (fun kw =>
          substrB kw (strLower e.title) || substrB kw (strLower e.event_ticker)))
    let n := rel.length
    { matching_markets_found := ¬ rel.isEmpty
      related_events := rel
      conclusion :=
        if rel.isEmpty then noMatch
        else "Found " ++ toString n ++ " related markets on Kalshi."
      error := none }

/-- Environment-supplied success payload of the whale scan; the
transaction aggregation (server.py lines 663-735) is summarised since no
claim inspects it. -/
structure WhalePayload where
  wallets_analyzed : ℕ
  whale_count : ℕ
  fish_count : ℕ
  total_volume_tracked : ℚ
  net_flow_direction : String
deriving Repr, DecidableEq

/-- Outcome of the Etherscan call inside `fetch_whale_activity`
(server.py lines 629-739). -/
inductive WhaleFetch
  | noKey
  | exc (msg : String)
  | badPayload (msg : String)
  | ok (p : WhalePayload)
deriving Repr, DecidableEq

/-- The shapes `fetch_whale_activity` can return: the bare no-key error
dict, the error-tagged skeleton (exception or unexpected payload), or a
full summary. -/
inductive WhaleResult
  | noKey (msg : String)
  | failed (msg : String)
  | ok (p : WhalePayload)
deriving Repr, DecidableEq

/-- `fetch_whale_activity()` (server.py lines 629-739) with the HTTP
outcome as a parameter. -/
def fetch_whale_activity (o : WhaleFetch) : WhaleResult :=
  match o with
  | .noKey => .noKey "No Polygonscan/Etherscan API key configured"
  | .exc m => .failed m
  | .badPayload m => .failed m
  | .ok p => .ok p

/-- One side of a fetched order book, summarised (server.py lines
770-781); no claim reads the ladder itself. -/
structure BookSide where
  best_bid : ℚ
  best_ask : ℚ
  num_bids : ℕ
  num_asks : ℕ
deriving Repr, DecidableEq

/-- Outcome of one CLOB book request (server.py lines 763-783). -/
inductive BookFetch
  | ok (b : BookSide)
  | non200
  | exc
deriving Repr, DecidableEq

/-- What ends up under `book[side]`: the data, nothing (non-200 leaves
the key unset), or the fixed error dict from the except branch. -/
inductive BookEntry
  | data (b : BookSide)
  | missing
  | failed
deriving Repr, DecidableEq

/-- Translate a request outcome into the stored entry. -/
def bookEntryOf : BookFetch → BookEntry
  | .ok b => .data b
  | .non200 => .missing
  | .exc => .failed

/-- Per-market book record (server.py line 760). -/
structure MarketBook where
  question : String
  strike : ℚ
  yes : BookEntry
  no : BookEntry
deriving Repr, DecidableEq

/-- The dict key chosen for a market's book (server.py line 750). -/
def marketKey (m : Market) : String :=
  if m.slug ≠ "" then m.slug
  else if m.id ≠ "" then m.id
  else if m.strike > 0 then "$" ++ toString ⌊m.strike⌋
  else (m.question.toList.take 30).asString

/-- `fetch_orderbook_depth(markets)` (server.py lines 744-787) with the
per-token request outcomes as a parameter; markets with fewer than two
token ids are skipped. -/
def fetch_orderbook_depth (bookOf : String → BookFetch)
    (markets : List Market) : List (String × MarketBook) :=
  markets.filterMap (fun m =>
    if m.clobTokenIds.length < 2 then none
    else
      some (marketKey m,
        { question := m.question
          strike := m.strike
          yes := bookEntryOf (bookOf (m.clobTokenIds.getD 0 ""))
          no := bookEntryOf (bookOf (m.clobTokenIds.getD 1 "")) }))

/-- Outcome of the report generator (server.py lines 792-874). -/
inductive ReportFetch
  | unavailable
  | ok (text : String)
  | exc (msg : String)
deriving Repr, DecidableEq

/-- `generate_claude_report(full_data)` (server.py lines 792-874) with
the external call's outcome as a parameter. -/
def generate_claude_report : ReportFetch → String
  | .unavailable => "AI report generation not available (Anthropic API key not configured)"
  | .ok s => s
  | .exc e => "AI report generation failed: " ++ e

/-- The environment of one pipeline run: every external interaction of
`run_full_analysis`, plus the oracle standing for the real-valued
Black-Scholes output (see `analyzeMarket`).  `endParseDays` is
`(end − now) / 86400` when the event end date parses, `none` when
parsing raises. -/
structure Env where
  event : Option Event'
  stock : Option StockQuote
  endParseDays : Option ℚ
  bsOracle : ℚ → ℚ → ℚ → ℚ → ℚ
  sports : SportsFetch
  kalshi : KalshiFetch
  whale : WhaleFetch
  books : String → BookFetch
  report : ReportFetch

/-- The final `result` object assembled in step 10 (server.py lines
1146-1161); `generated_at` (wall clock) omitted. -/
structure AnalysisResult where
  event : Event'
  stock_data : Option StockQuote
  days_to_expiry : ℚ
  strike_analysis : List Analysis
  sports_odds : SportsOddsResult
  kalshi_comparison : KalshiResult
  whale_tracking : WhaleResult
  orderbook_depth : List (String × MarketBook)
  strategy : Strategy
  claude_report : String
  budget : ℚ
  ticker : Option String
  is_sports : Bool

/-- `has_strikes = any(m["strike"] > 0 for m in markets)` (server.py
line 891). -/
def hasStrikes (e : Event') : Bool :=
  e.markets.any (fun m => m.strike > 0)

/-- The `stock` local of step 2: fetched only when the title yields a
ticker and some market has a strike (server.py lines 897-904). -/
def pipelineStock (env : Env) (e : Event') : Option StockQuote :=
  if (extract_ticker e.event_title).isSome ∧ hasStrikes e then env.stock else none

/-- The `spot` local: the stock's spot price, 0 when no stock data. -/
def pipelineSpot (env : Env) (e : Event') : ℚ :=
  match pipelineStock env e with
  | some s => s.spot_price
  | none => 0

/-- The `iv` local: the stock's implied volatility, 0.30 when no stock
data. -/
def pipelineIv (env : Env) (e : Event') : ℚ :=
  match pipelineStock env e with
  | some s => s.implied_volatility
  | none => 30 / 100

/-- The `days_left` local (server.py lines 907-911): the parsed distance
to the event end floored at 0.01 days, or 7 days when parsing fails. -/
def pipelineDays (env : Env) : ℚ :=
  match env.endParseDays with
  | some d => max d (1 / 100)
  | none => 7

/-- The `all_analysis` list built by step 3 (server.py lines 915-952). -/
def pipelineAnalyses (env : Env) (e : Event') (budget : ℚ) : List Analysis :=
  e.markets.map
    (analyzeMarket env.bsOracle (pipelineSpot env e) (pipelineIv env e)
      (pipelineDays env) budget (hasStrikes e))

/-- Steps 2 through 10 of `run_full_analysis` (server.py lines 890-1161)
for a fetched event: the data flowing into the final result. -/
def pipelineResult (env : Env) (e : Event') (budget : ℚ) : AnalysisResult :=
  let ticker := extract_ticker e.event_title
  let is_sports := is_sports_event e.event_title
  let sports_odds : SportsOddsResult :=
    if is_sports then
      match env.sports with
      | .failure m => .failure m
      | .matched s g t => .matched s g t
    else .empty
  let search_kws := searchKeywords e.event_title ticker
  { event := e
    stock_data := pipelineStock env e
    days_to_expiry := pipelineDays env
    strike_analysis := pipelineAnalyses env e budget
    sports_odds := sports_odds
    kalshi_comparison := fetch_kalshi_markets env.kalshi search_kws
    whale_tracking := fetch_whale_activity env.whale
    orderbook_depth := fetch_orderbook_depth env.books e.markets
    strategy := mkStrategy budget (pipelineAnalyses env e budget)
    claude_report := generate_claude_report env.report
    budget := budget
    ticker := ticker
    is_sports := is_sports }

/-- Job status values. -/
inductive JStatus
  | running
  | completed
  | error
deriving Repr, DecidableEq

/-- A job record as stored by the file-backed job store (server.py lines
1588-1595). -/
structure JobRec where
  status : JStatus
  step : ℕ
  total_steps : ℕ
  step_label : String
  result : Option AnalysisResult
  error : Option String

/-- A partial update passed to `_update_job`; `none` models an absent
dict key (the written values themselves are never null). -/
structure JobUpdate where
  status : Option JStatus := none
  step : Option ℕ := none
  step_label : Option String := none
  result : Option AnalysisResult := none
  error : Option String := none

/-- `job.update(updates)` inside `_update_job` (server.py lines 118-124):
present keys overwrite, absent keys leave the record unchanged. -/
def applyUpdate (j : JobRec) (u : JobUpdate) : JobRec :=
  { status := u.status.getD j.status
    step := u.step.getD j.step
    total_steps := j.total_steps
    step_label := u.step_label.getD j.step_label
    result := match u.result with | some r => some r | none => j.result
    error := match u.error with | some e => some e | none => j.error }

/-- The record written by `api_analyze` when a job is created (server.py
lines 1588-1595). -/
def initialJob : JobRec :=
  { status := .running
    step := 0
    total_steps := 10
    step_label := "Starting..."
    result := none
    error := none }

/-- Shorthand for the `{step, step_label}` progress updates. -/
def progressUpd (k : ℕ) (label : String) : JobUpdate :=
  { step := some k, step_label := some label }

/-- The ten progress updates written at the entry of each pipeline step,
with the labels of `PIPELINE_STEPS` (server.py lines 145-156). -/
def progressUpdates : List JobUpdate :=
  [progressUpd 1 "Fetching Polymarket event data...",
   progressUpd 2 "Fetching stock/asset data...",
   progressUpd 3 "Running probability models...",
   progressUpd 4 "Fetching sports odds (if applicable)...",
   progressUpd 5 "Searching Kalshi for cross-platform opportunities...",
   progressUpd 6 "Tracking whale wallets on Polygon...",
   progressUpd 7 "Fetching CLOB orderbook depth...",
   progressUpd 8 "Calculating Kelly sizing & strategy...",
   progressUpd 9 "Generating AI analysis report...",
   progressUpd 10 "Finalizing results..."]

/-- The sequence of job-store updates performed by one
`run_full_analysis` run (server.py lines 879-1167).  `crash = some (k,
msg)` models an unexpected exception reaching the outer handler after
`k` progress updates of the non-fatal path (the handler then writes the
error record); `crash = none` is a normal run. -/
def runTrace (env : Env) (budget : ℚ) (crash : Option (ℕ × String)) :
    List JobUpdate :=
  match env.event with
  | none =>
    [progressUpd 1 "Fetching Polymarket event data...",
     { status := some .error, error := some "Event not found" }]
  | some e =>
    match crash with
    | some (k, msg) =>
      progressUpdates.take k ++ [{ status := some .error, error := some msg }]
    | none =>
      progressUpdates ++
        [{ status := some .completed, step := some 10,
           step_label := some "Analysis complete!",
           result := some (pipelineResult env e budget) }]

/-- The job record after a full run. -/
def finalJob (env : Env) (budget : ℚ) (crash : Option (ℕ × String)) : JobRec :=
  (runTrace env budget crash).foldl applyUpdate initialJob

/-- Every state of the job record over a run, as observable by pollers of
the job store (the store's write-then-rename update is atomic, so a
concurrent reader sees exactly the records of this list). -/
def jobStates (env : Env) (budget : ℚ) (crash : Option (ℕ × String)) :
    List JobRec :=
  (runTrace env budget crash).scanl applyUpdate initialJob

/-- The standard normal cumulative distribution function, `scipy.stats
.norm.cdf`. -/
noncomputable def normCdf (x : ℝ) : ℝ :=
  ProbabilityTheory.cdf (ProbabilityTheory.gaussianReal 0 1) x

/-- Direction argument of `black_scholes_prob`. -/
inductive BSDirection
  | above
  | below
deriving Repr, DecidableEq

/-- Result dict of `black_scholes_prob` (server.py lines 193-223); the
fields computed only on the valid-input path are `Option`s. -/
structure BSResult where
  spot : ℝ
  strike : ℝ
  iv : ℝ
  days_to_expiry : ℝ
  T_years : Option ℝ
  d1 : Option ℝ
  d2 : Option ℝ
  prob_above : Option ℝ
  prob_below : Option ℝ
  delta : Option ℝ
  true_probability : ℝ
  model : String

/-- `black_scholes_prob(spot, strike, iv, days_to_expiry, direction,
risk_free)` (server.py lines 193-223); the Python default for
`risk_free` is 0.045 and all call sites use it. -/
noncomputable def black_scholes_prob (spot strike iv days_to_expiry : ℝ)
    (direction : BSDirection) (risk_free : ℝ) : BSResult :=
  if spot ≤ 0 ∨ strike ≤ 0 ∨ iv ≤ 0 then
    { spot := spot, strike := strike, iv := iv,
      days_to_expiry := days_to_expiry,
      T_years := none, d1 := none, d2 := none,
      prob_above := none, prob_below := none, delta := none,
      true_probability := 1 / 2, model := "Invalid inputs" }
  else
    let T := max (days_to_expiry / 365) (1 / 1000)
    let d1 := (Real.log (spot / strike) + (risk_free + iv ^ 2 / 2) * T) /
      (iv * Real.sqrt T)
    let d2 := d1 - iv * Real.sqrt T
    let prob_above := normCdf d2
    let prob_below := 1 - prob_above
    let delta := normCdf d1
    { spot := spot, strike := strike, iv := iv,
      days_to_expiry := days_to_expiry,
      T_years := some T
      d1 := some (pround 4 d1)
      d2 := some (pround 4 d2)
      prob_above := some (pround 6 prob_above)
      prob_below := some (pround 6 prob_below)
      delta := some (pround 4 delta)
      true_probability :=
        pround 6 (match direction with | .above => prob_above | .below => prob_below)
      model := "Black-Scholes" }

/-- Verdict rule as worded by the spec (section 4.4), for comparison with
`detect_arbitrage`. -/
def specVerdict (price probability : ℚ) : String :=
  let edge := |price - probability|
  if edge ≥ 8 / 100 then "ARBITRAGE"
  else if edge < 2 / 100 then "FAIR"
  else if price < probability then "CHEAP"
  else "EXPENSIVE"

/-- Recommendation rule as worded by the spec (section 4.4), for
comparison with `detect_arbitrage`. -/
def specRecommendation (price probability : ℚ) : String :=
  let edge := |price - probability|
  if edge < 1 / 100 then "PASS"
  else if price < probability then "BUY YES"
  else "BUY NO"

/-- A market with `yes_price = 0.5` and zero volume, 24h volume,
liquidity, spread and 1-day price change, the configuration named by the
trending-score claim. -/
def flatMarket : TrendMarket :=
  { question := "Will the coin land heads?"
    yes_price := 1 / 2
    volume := 0
    volume_24h := 0
    liquidity := 0
    spread := 0
    oneDayPriceChange := 0 }

/-- A single market quoted at 83 cents with no strike, the example input
of the strategy-selector claim. -/
def market083 : Market :=
  { id := "m1"
    question := "Will the index finish higher?"
    strike := 0
    yes_price := 83 / 100
    no_price := 17 / 100
    volume := 0
    liquidity := 0
    spread := 0
    clobTokenIds := []
    slug := ""
    endDate := "" }

/-- A degenerate market whose quoted YES price is 0, so both sizing
results are rejected. -/
def marketZero : Market :=
  { id := "m0"
    question := "Will the halted outcome occur?"
    strike := 0
    yes_price := 0
    no_price := 1
    volume := 0
    liquidity := 0
    spread := 0
    clobTokenIds := []
    slug := ""
    endDate := "" }

/-- An event wrapping one market. -/
def oneMarketEvent (m : Market) : Event' :=
  { event_title := "Will the outcome occur?"
    event_volume := 0
    event_liquidity := 0
    event_end := ""
    event_active := true
    event_closed := false
    volume_24h := 0
    markets := [m] }

/-- An environment in which every soft collector fails and the event is
the given one. -/
def failingEnv (event : Option Event') : Env :=
  { event := event
    stock := none
    endParseDays := none
    bsOracle := fun _ _ _ _ => 1 / 2
    sports := .failure "Failed to fetch sports"
    kalshi := .exc "kalshi down"
    whale := .exc "etherscan down"
    books := fun _ => .exc
    report := .exc "anthropic down" }

/-- The concrete title used to exercise the keyword cap: five usable
title words plus an extractable ticker. -/
def capTitle : String :=
  "Apple (AAPL) quarterly earnings beat analyst expectations again"

/-- The environment of the selector example: the 0.83 market's event,
all soft collectors failing. -/
def env083 : Env :=
  failingEnv (some (oneMarketEvent market083))

/-- The single per-market analysis of the 0.83 example as computed by
step 3 (no ticker, no strikes, so spot 0, default iv 0.30 and default 7
days reach the market-implied branch). -/
def analysis083 : Analysis :=
  analyzeMarket env083.bsOracle 0 (30 / 100) 7 1000 false market083

/-- The environment of the rejected-sizing example: one market whose
YES price is 0. -/
def envZero : Env :=
  failingEnv (some (oneMarketEvent marketZero))

/-- The single per-market analysis of the rejected-sizing example. -/
def analysisZero : Analysis :=
  analyzeMarket envZero.bsOracle 0 (30 / 100) 7 1000 false marketZero

section RoundLemmas

variable {α : Type} [LinearOrderedField α] [FloorRing α]

theorem pround_mono (n : ℕ) {x y : α} (h : x ≤ y) : pround n x ≤ pround n y := by
  have h10 : (0 : α) < 10 ^ n := by positivity
  have hr : round (x * 10 ^ n) ≤ round (y * 10 ^ n) := by
    rw [round_eq, round_eq]
    exact Int.floor_mono (by
      have := mul_le_mul_of_nonneg_right h h10.le
      linarith)
  unfold pround
  have hc : ((round (x * 10 ^ n) : ℤ) : α) ≤ ((round (y * 10 ^ n) : ℤ) : α) :=
    Int.cast_le.2 hr
  exact (div_le_div_iff_of_pos_right h10).2 hc

theorem abs_pround_sub (n : ℕ) (x : α) :
    |pround n x - x| ≤ 1 / (2 * 10 ^ n) := by
  have h10 : (0 : α) < 10 ^ n := by positivity
  have h : |x * 10 ^ n - round (x * 10 ^ n)| ≤ 1 / 2 := abs_sub_round _
  rw [abs_sub_comm] at h
  have heq : pround n x - x = ((round (x * 10 ^ n) : ℤ) : α) / 10 ^ n -
      (x * 10 ^ n) / 10 ^ n := by
    unfold pround
    rw [mul_div_cancel_right₀ _ h10.ne']
  rw [heq, div_sub_div_same, abs_div, abs_of_pos h10]
  rw [div_le_div_iff₀ h10 (by positivity : (0 : α) < 2 * 10 ^ n)]
  have := mul_le_mul_of_nonneg_right h (le_of_lt h10)
  nlinarith

theorem pround_intCast (n : ℕ) (z : ℤ) : pround n ((z : α)) = (z : α) := by
  have h10 : (10 : α) ^ n ≠ 0 := by positivity
  unfold pround
  have : ((z : α) * 10 ^ n) = (((z * 10 ^ n : ℤ) : ℤ) : α) := by push_cast; ring
  rw [this, round_intCast]
  push_cast
  field_simp

theorem pround_zero (n : ℕ) : pround n (0 : α) = 0 := by
  simpa using pround_intCast (α := α) n 0

theorem pround_one (n : ℕ) : pround n (1 : α) = 1 := by
  simpa using pround_intCast (α := α) n 1

theorem pround_five (n : ℕ) : pround n (5 : α) = 5 := by
  simpa using pround_intCast (α := α) n 5

theorem pround_nonneg (n : ℕ) {x : α} (hx : 0 ≤ x) : 0 ≤ pround n x := by
  have := pround_mono (α := α) n hx
  rwa [pround_zero] at this

theorem pround_le_one (n : ℕ) {x : α} (hx : x ≤ 1) : pround n x ≤ 1 := by
  have := pround_mono (α := α) n hx
  rwa [pround_one] at this

theorem pround_le_add (n : ℕ) (x : α) : pround n x ≤ x + 1 / (2 * 10 ^ n) := by
  have h := abs_pround_sub n x
  have h1 := abs_le.1 h
  linarith [h1.2]

theorem le_pround_add (n : ℕ) (x : α) : x - 1 / (2 * 10 ^ n) ≤ pround n x := by
  have h := abs_pround_sub n x
  have h1 := abs_le.1 h
  linarith [h1.1]

end RoundLemmas

/-- Claim C4: the arbitrage detector is a pure function of (price,
probability) with edge `|price − probability|`; its verdict is ARBITRAGE
for edge ≥ 0.08, FAIR for edge < 0.02, otherwise CHEAP when price <
probability and EXPENSIVE when price ≥ probability; its recommendation is
PASS for edge < 0.01, otherwise BUY YES when price < probability and BUY
NO otherwise; in particular verdict(0.50, 0.50) = FAIR and verdict(0.10,
0.50) = ARBITRAGE with recommendation BUY YES. -/
theorem C4_detect_arbitrage_rules :
    (∀ price probability : ℚ,
      (detect_arbitrage price probability).verdict = specVerdict price probability ∧
      (detect_arbitrage price probability).recommendation =
        specRecommendation price probability ∧
      (detect_arbitrage price probability).edge_absolute =
        pround 4 |price - probability|) ∧
    (detect_arbitrage (50 / 100) (50 / 100)).verdict = "FAIR" ∧
    (detect_arbitrage (10 / 100) (50 / 100)).verdict = "ARBITRAGE" ∧
    (detect_arbitrage (10 / 100) (50 / 100)).recommendation = "BUY YES" := by
  refine ⟨fun price probability => ?_,
    by norm_num [detect_arbitrage],
    by norm_num [detect_arbitrage, abs_of_nonneg],
    by norm_num [detect_arbitrage, abs_of_nonneg]⟩
  refine ⟨?_, ?_, rfl⟩
  · simp only [detect_arbitrage, specVerdict]
    split_ifs <;> rfl
  · simp only [detect_arbitrage, specRecommendation]
    split_ifs <;> rfl

/-- Claim C9 counterexample: for the flat market (yes price 0.5,
everything else zero) the trending score is 31.7, not the bare
uncertainty term 20: the ROI-potential term `min(roi/300, 1) × 35` with
`roi = (1/0.5 − 1) × 100 = 100` contributes 35/3. -/
theorem C9_counterexample :
    compute_polysnap_score flatMarket = 317 / 10 ∧
    compute_polysnap_score flatMarket ≠ 20 := by
  constructor <;>
    norm_num [compute_polysnap_score, flatMarket, pround, round_eq,
      min_def, max_def]

theorem clamp_bet_lower (bankroll B : ℚ) :
    5 ≤ pround 2 (max 5 (min B (bankroll * (35 / 100)))) := by
  have h := pround_mono (α := ℚ) 2 (le_max_left 5 (min B (bankroll * (35 / 100))))
  rwa [pround_five] at h

theorem clamp_bet_upper (bankroll B : ℚ) (hb : 100 / 7 ≤ bankroll) :
    pround 2 (max 5 (min B (bankroll * (35 / 100)))) ≤
      bankroll * (35 / 100) + 1 / 200 := by
  have hC : (5 : ℚ) ≤ bankroll * (35 / 100) := by linarith
  have hbet : max 5 (min B (bankroll * (35 / 100))) ≤ bankroll * (35 / 100) :=
    max_le hC (min_le_right _ _)
  have h := pround_le_add (α := ℚ) 2 (max 5 (min B (bankroll * (35 / 100))))
  have : (1 : ℚ) / (2 * 10 ^ 2) = 1 / 200 := by norm_num
  rw [this] at h
  linarith

theorem clamp_pct_close (bankroll t : ℚ) (hb : 0 < bankroll) :
    |pround 2 (t / bankroll * 100) * bankroll / 100 - pround 2 t| ≤
      1 / 200 + bankroll / 20000 := by
  have hbne : bankroll ≠ 0 := hb.ne'
  have h1 : |pround 2 (t / bankroll * 100) - t / bankroll * 100| ≤ 1 / 200 := by
    have := abs_pround_sub (α := ℚ) 2 (t / bankroll * 100)
    have e : (1 : ℚ) / (2 * 10 ^ 2) = 1 / 200 := by norm_num
    rwa [e] at this
  have h2 : |pround 2 t - t| ≤ 1 / 200 := by
    have := abs_pround_sub (α := ℚ) 2 t
    have e : (1 : ℚ) / (2 * 10 ^ 2) = 1 / 200 := by norm_num
    rwa [e] at this
  have key : pround 2 (t / bankroll * 100) * bankroll / 100 - pround 2 t =
      (pround 2 (t / bankroll * 100) - t / bankroll * 100) * (bankroll / 100) -
      (pround 2 t - t) := by
    field_simp
    ring
  rw [key]
  calc |(pround 2 (t / bankroll * 100) - t / bankroll * 100) * (bankroll / 100) -
        (pround 2 t - t)|
      ≤ |(pround 2 (t / bankroll * 100) - t / bankroll * 100) * (bankroll / 100)| +
        |pround 2 t - t| := abs_sub _ _
    _ ≤ (1 / 200) * (bankroll / 100) + 1 / 200 := by
        have habs : |(pround 2 (t / bankroll * 100) - t / bankroll * 100) *
            (bankroll / 100)| =
            |pround 2 (t / bankroll * 100) - t / bankroll * 100| * (bankroll / 100) := by
          rw [abs_mul, abs_of_pos (by positivity : (0 : ℚ) < bankroll / 100)]
        rw [habs]
        have := mul_le_mul_of_nonneg_right h1
          (by positivity : (0 : ℚ) ≤ bankroll / 100)
        linarith
    _ ≤ 1 / 200 + bankroll / 20000 := by linarith

/-- Claim C2 counterexample: the claimed interval `[$5, 0.35 × bankroll]`
fails twice.  With bankroll 10 (price 0.5, probability 0.5, YES) the bet
is the $5 floor, above the 0.35 × 10 = $3.50 cap; and with bankroll
100.02 (price 0.8, probability 0.5, YES) the final cent rounding returns
$35.01, above the cap 0.35 × 100.02 = $35.007. -/
theorem C2_counterexample :
    (kellySide 10 (1 / 2) (1 / 2) .yes).bet_amount = 5 ∧
    ¬ (kellySide 10 (1 / 2) (1 / 2) .yes).bet_amount ≤ 10 * (35 / 100) ∧
    (kellySide (5001 / 50) (1 / 2) (4 / 5) .yes).bet_amount = 3501 / 100 ∧
    ¬ (kellySide (5001 / 50) (1 / 2) (4 / 5) .yes).bet_amount ≤
      (5001 / 50) * (35 / 100) := by
  have e1 : (kellySide 10 (1 / 2) (1 / 2) .yes).bet_amount = 5 := by
    unfold kellySide
    rw [if_neg (by norm_num)]
    dsimp only
    norm_num [pround, round_eq, min_def, max_def]
  have e2 : (kellySide (5001 / 50) (1 / 2) (4 / 5) .yes).bet_amount = 3501 / 100 := by
    unfold kellySide
    rw [if_neg (by norm_num)]
    dsimp only
    norm_num [pround, round_eq, min_def, max_def, abs_of_nonneg]
  refine ⟨e1, ?_, e2, ?_⟩
  · rw [e1]; norm_num
  · rw [e2]; norm_num

/-- Claim C2 (amended): for every bankroll with `0.35 × bankroll ≥ $5`
(i.e. bankroll ≥ 100/7 ≈ $14.29), every side price in (0,1) and every
positive probability for that side, the bet lies in `[$5, 0.35 ×
bankroll + half a cent]` (the lower bound is exact; the cap can be
exceeded by the final cent rounding, see the counterexample), and the
reported `position_pct` is recomputed from the clamped bet:
`position_pct × bankroll / 100` reproduces `bet_amount` within the two
rounding errors. -/
theorem C2_kelly_sizing_amended (bankroll true_prob poly_price : ℚ) (side : Side)
    (hb : 100 / 7 ≤ bankroll)
    (hp0 : 0 < (match side with | .yes => poly_price | .no => 1 - poly_price))
    (hp1 : (match side with | .yes => poly_price | .no => 1 - poly_price) < 1)
    (hq0 : 0 < (match side with | .yes => true_prob | .no => 1 - true_prob)) :
    5 ≤ (kellySide bankroll true_prob poly_price side).bet_amount ∧
    (kellySide bankroll true_prob poly_price side).bet_amount ≤
      bankroll * (35 / 100) + 1 / 200 ∧
    |(kellySide bankroll true_prob poly_price side).position_pct * bankroll / 100 -
      (kellySide bankroll true_prob poly_price side).bet_amount| ≤
      1 / 200 + bankroll / 20000 := by
  have hbpos : (0 : ℚ) < bankroll := lt_of_lt_of_le (by norm_num) hb
  have hguard : ¬ ((match side with | .yes => poly_price | .no => 1 - poly_price) ≤ 0 ∨
      1 ≤ (match side with | .yes => poly_price | .no => 1 - poly_price) ∨
      (match side with | .yes => true_prob | .no => 1 - true_prob) ≤ 0) := by
    push_neg
    exact ⟨hp0, hp1, hq0⟩
  unfold kellySide
  rw [if_neg hguard]
  dsimp only
  rw [if_pos hbpos]
  refine ⟨clamp_bet_lower _ _, clamp_bet_upper _ _ hb, ?_⟩
  exact clamp_pct_close bankroll _ hbpos

/-- Claim C2 witness: the amended bounds at bankroll 1000, price 0.5,
probability 0.5, side YES. -/
theorem C2_kelly_sizing_amended_witness :
    5 ≤ (kellySide 1000 (1 / 2) (1 / 2) .yes).bet_amount ∧
    (kellySide 1000 (1 / 2) (1 / 2) .yes).bet_amount ≤ 1000 * (35 / 100) + 1 / 200 ∧
    |(kellySide 1000 (1 / 2) (1 / 2) .yes).position_pct * 1000 / 100 -
      (kellySide 1000 (1 / 2) (1 / 2) .yes).bet_amount| ≤ 1 / 200 + 1000 / 20000 :=
  C2_kelly_sizing_amended 1000 (1 / 2) (1 / 2) .yes (by norm_num) (by norm_num)
    (by norm_num) (by norm_num)

/-- Claim C8 counterexample: the keyword list of step 5 can have 6
entries.  For the title "Apple (AAPL) quarterly earnings beat analyst
expectations again" five title keywords survive the stop-word filter and
the cap, and the ticker AAPL is then inserted in front, for 6 keywords in
total — the claimed bound of at most 5 fails. -/
theorem C8_counterexample :
    step5Keywords capTitle =
      ["AAPL", "Apple", "AAPL", "quarterly", "earnings", "beat"] ∧
    (step5Keywords capTitle).length = 6 ∧ ¬ (step5Keywords capTitle).length ≤ 5 := by
  refine ⟨by decide, by decide, by decide⟩

/-- Claim C8 (amended): the keyword list passed to the Kalshi search is
derived from the event title (maximal letter runs of length ≥ 3) with
the generic stop-words removed and capped to 5 title keywords; the
extracted ticker, when present, is then prepended (placed first), so the
list has at most 5 entries without a ticker and at most 6 with one. -/
theorem C8_step5_keywords_amended (title : String) :
    (step5Keywords title).length ≤ 6 ∧
    (extract_ticker title = none → (step5Keywords title).length ≤ 5) ∧
    (∀ t, extract_ticker title = some t →
      (step5Keywords title).head? = some t) ∧
    step5Keywords title =
      (match extract_ticker title with
        | some t => t ::
            ((titleWords title).filter
              (fun w => ¬ skip_words.contains (strLower w))).take 5
        | none =>
            ((titleWords title).filter
              (fun w => ¬ skip_words.contains (strLower w))).take 5) ∧
    (∀ w ∈ ((titleWords title).filter
        (fun w => ¬ skip_words.contains (strLower w))).take 5,
      skip_words.contains (strLower w) = false ∧ w ∈ titleWords title) := by
  have hlen : (((titleWords title).filter
      (fun w => ¬ skip_words.contains (strLower w))).take 5).length ≤ 5 := by
    exact List.length_take_le 5 _
  refine ⟨?_, ?_, ?_, ?_, ?_⟩
  · unfold step5Keywords searchKeywords
    cases extract_ticker title with
    | none => simp only; exact le_trans hlen (by omega)
    | some t => simp only [List.length_cons]; omega
  · intro h
    unfold step5Keywords searchKeywords
    rw [h]
    exact hlen
  · intro t h
    unfold step5Keywords searchKeywords
    rw [h]
    rfl
  · unfold step5Keywords searchKeywords
    cases extract_ticker title <;> rfl
  · intro w hw
    have hw' : w ∈ (titleWords title).filter
        (fun w => ¬ skip_words.contains (strLower w)) :=
      List.take_subset 5 _ hw
    have := List.mem_filter.1 hw'
    refine ⟨?_, this.1⟩
    have hb := this.2
    simp only [decide_eq_true_eq] at hb
    simpa using hb

/-- Claim C8 witness: the amended statement at the concrete capped
title. -/
theorem C8_step5_keywords_amended_witness :
    (step5Keywords capTitle).length ≤ 6 ∧
    (step5Keywords capTitle).head? = some "AAPL" :=
  ⟨(C8_step5_keywords_amended capTitle).1,
    (C8_step5_keywords_amended capTitle).2.2.1 "AAPL" (by decide)⟩

/-- Claim C9 (amended): for a market with yes price 0.5 and zero volume,
24h volume, liquidity, spread and 1-day price change, the trending score
is the flat near-50/50 uncertainty term (20) plus the ROI-potential term
(35/3), rounded to 31.7 — not the uncertainty term alone — and the
verdict is COOL. -/
theorem C9_trending_flat_amended :
    compute_polysnap_score flatMarket = pround 1 (20 + 35 / 3) ∧
    compute_polysnap_score flatMarket = 317 / 10 ∧
    trendVerdict flatMarket = "COOL" := by
  refine ⟨?_, ?_, ?_⟩ <;>
    norm_num [compute_polysnap_score, trendVerdict, flatMarket, pround,
      round_eq, min_def, max_def]

theorem normCdf_nonneg (x : ℝ) : 0 ≤ normCdf x :=
  ProbabilityTheory.cdf_nonneg _ _

theorem normCdf_le_one (x : ℝ) : normCdf x ≤ 1 :=
  ProbabilityTheory.cdf_le_one _ _

theorem normCdf_tendsto_one : Tendsto normCdf atTop (𝓝 1) :=
  ProbabilityTheory.tendsto_cdf_atTop _

section RoundOne

variable {α : Type} [LinearOrderedField α] [FloorRing α]

theorem pround_eq_one (n : ℕ) {x : α}
    (h1 : 1 - 1 / (2 * 10 ^ n) < x) (h2 : x ≤ 1) : pround n x = 1 := by
  have h10 : (0 : α) < 10 ^ n := by positivity
  have hfl : round (x * 10 ^ n) = (10 ^ n : ℤ) := by
    rw [round_eq, Int.floor_eq_iff]
    have hx : (1 - 1 / (2 * 10 ^ n)) * 10 ^ n = (10 : α) ^ n - 1 / 2 := by
      field_simp
      ring
    constructor
    · push_cast
      nlinarith [mul_lt_mul_of_pos_right h1 h10, hx]
    · push_cast
      nlinarith [mul_le_mul_of_nonneg_right h2 h10.le]
  unfold pround
  rw [hfl]
  push_cast
  field_simp

end RoundOne

theorem bs_atm_tendsto_one (spot days : ℝ) (hs : 0 < spot) (hd : 0 < days) :
    Tendsto
      (fun iv => (black_scholes_prob spot spot iv days .above (9 / 200)).true_probability)
      (𝓝[>] 0) (𝓝 1) := by
  have hTpos : (0 : ℝ) < max (days / 365) (1 / 1000) :=
    lt_of_lt_of_le (by norm_num) (le_max_right _ _)
  have hsT : 0 < Real.sqrt (max (days / 365) (1 / 1000)) := Real.sqrt_pos.2 hTpos
  have hTT : Real.sqrt (max (days / 365) (1 / 1000)) *
      Real.sqrt (max (days / 365) (1 / 1000)) = max (days / 365) (1 / 1000) :=
    Real.mul_self_sqrt hTpos.le
  have hlog : Real.log (spot / spot) = 0 := by rw [div_self hs.ne', Real.log_one]
  have hA : (0 : ℝ) < 9 / 200 * Real.sqrt (max (days / 365) (1 / 1000)) := by positivity
  have h1 : Tendsto
      (fun iv : ℝ => 9 / 200 * Real.sqrt (max (days / 365) (1 / 1000)) * iv⁻¹)
      (𝓝[>] 0) atTop :=
    tendsto_inv_zero_atTop.const_mul_atTop hA
  have h2 : Tendsto
      (fun iv : ℝ => iv * (-Real.sqrt (max (days / 365) (1 / 1000)) / 2))
      (𝓝[>] 0) (𝓝 0) := by
    have hc : Tendsto
        (fun iv : ℝ => iv * (-Real.sqrt (max (days / 365) (1 / 1000)) / 2))
        (𝓝 0) (𝓝 (0 * (-Real.sqrt (max (days / 365) (1 / 1000)) / 2))) :=
      (continuous_id.mul continuous_const).tendsto 0
    rw [zero_mul] at hc
    exact hc.mono_left nhdsWithin_le_nhds
  have hsum := h1.atTop_add h2
  have hd2 : Tendsto
      (fun iv : ℝ =>
        (Real.log (spot / spot) + (9 / 200 + iv ^ 2 / 2) * max (days / 365) (1 / 1000)) /
          (iv * Real.sqrt (max (days / 365) (1 / 1000))) -
          iv * Real.sqrt (max (days / 365) (1 / 1000)))
      (𝓝[>] 0) atTop := by
    apply hsum.congr'
    filter_upwards [self_mem_nhdsWithin] with iv hiv
    have hivne : iv ≠ 0 := ne_of_gt hiv
    rw [hlog]
    set s := Real.sqrt (max (days / 365) (1 / 1000)) with hsdef
    have hs0 : s ≠ 0 := ne_of_gt hsT
    rw [← hTT]
    field_simp
    ring
  have hcomp : Tendsto
      (fun iv : ℝ => normCdf
        ((Real.log (spot / spot) + (9 / 200 + iv ^ 2 / 2) * max (days / 365) (1 / 1000)) /
          (iv * Real.sqrt (max (days / 365) (1 / 1000))) -
          iv * Real.sqrt (max (days / 365) (1 / 1000))))
      (𝓝[>] 0) (𝓝 1) := normCdf_tendsto_one.comp hd2
  have hev : ∀ᶠ iv in 𝓝[>] (0 : ℝ),
      1 - 1 / 2000000 < normCdf
        ((Real.log (spot / spot) + (9 / 200 + iv ^ 2 / 2) * max (days / 365) (1 / 1000)) /
          (iv * Real.sqrt (max (days / 365) (1 / 1000))) -
          iv * Real.sqrt (max (days / 365) (1 / 1000))) :=
    hcomp.eventually (eventually_gt_nhds (by norm_num))
  have heq : ∀ᶠ iv in 𝓝[>] (0 : ℝ),
      (black_scholes_prob spot spot iv days .above (9 / 200)).true_probability = 1 := by
    filter_upwards [hev, self_mem_nhdsWithin] with iv h1' h2'
    have hivpos : (0 : ℝ) < iv := h2'
    unfold black_scholes_prob
    rw [if_neg (by push_neg; exact ⟨hs, hs, hivpos⟩)]
    dsimp only
    refine pround_eq_one 6 ?_ (normCdf_le_one _)
    have e : (1 : ℝ) - 1 / (2 * 10 ^ 6) = 1 - 1 / 2000000 := by norm_num
    rw [e]
    exact h1'
  exact Tendsto.congr' (heq.mono fun iv h => h.symm) tendsto_const_nhds

/-- Claim C6: the probability model never fails; for spot ≤ 0, strike ≤ 0
or volatility ≤ 0 it returns probability exactly 0.5 with the explicit
"Invalid inputs" marker, and for every valid input (spot > 0, strike > 0,
iv > 0, days > 0) the returned probability lies in [0, 1]. -/
theorem C6_black_scholes_guard_range :
    (∀ (spot strike iv days : ℝ) (dir : BSDirection) (rf : ℝ),
      spot ≤ 0 ∨ strike ≤ 0 ∨ iv ≤ 0 →
        (black_scholes_prob spot strike iv days dir rf).true_probability = 1 / 2 ∧
        (black_scholes_prob spot strike iv days dir rf).model = "Invalid inputs") ∧
    (∀ (spot strike iv days : ℝ) (dir : BSDirection) (rf : ℝ),
      0 < spot → 0 < strike → 0 < iv → 0 < days →
        0 ≤ (black_scholes_prob spot strike iv days dir rf).true_probability ∧
        (black_scholes_prob spot strike iv days dir rf).true_probability ≤ 1 ∧
        (black_scholes_prob spot strike iv days dir rf).model = "Black-Scholes") := by
  constructor
  · intro spot strike iv days dir rf h
    unfold black_scholes_prob
    rw [if_pos h]
    exact ⟨rfl, rfl⟩
  · intro spot strike iv days dir rf h1 h2 h3 _h4
    unfold black_scholes_prob
    rw [if_neg (by push_neg; exact ⟨h1, h2, h3⟩)]
    cases dir with
    | above =>
      dsimp only
      exact ⟨pround_nonneg 6 (normCdf_nonneg _), pround_le_one 6 (normCdf_le_one _), rfl⟩
    | below =>
      dsimp only
      refine ⟨pround_nonneg 6 ?_, pround_le_one 6 ?_, rfl⟩
      · linarith [normCdf_le_one ((Real.log (spot / strike) +
          (rf + iv ^ 2 / 2) * max (days / 365) (1 / 1000)) /
          (iv * Real.sqrt (max (days / 365) (1 / 1000))) -
          iv * Real.sqrt (max (days / 365) (1 / 1000)))]
      · linarith [normCdf_nonneg ((Real.log (spot / strike) +
          (rf + iv ^ 2 / 2) * max (days / 365) (1 / 1000)) /
          (iv * Real.sqrt (max (days / 365) (1 / 1000))) -
          iv * Real.sqrt (max (days / 365) (1 / 1000)))]

/-- Claim C6 witness: the guard at spot = −1 and the range at a valid
input. -/
theorem C6_black_scholes_guard_range_witness :
    (black_scholes_prob (-1) 5 1 3 .above (9 / 200)).true_probability = 1 / 2 ∧
    0 ≤ (black_scholes_prob 1 2 1 10 .above (9 / 200)).true_probability ∧
    (black_scholes_prob 1 2 1 10 .above (9 / 200)).true_probability ≤ 1 :=
  ⟨(C6_black_scholes_guard_range.1 (-1) 5 1 3 .above (9 / 200)
      (Or.inl (by norm_num))).1,
    (C6_black_scholes_guard_range.2 1 2 1 10 .above (9 / 200)
      (by norm_num) (by norm_num) (by norm_num) (by norm_num)).1,
    (C6_black_scholes_guard_range.2 1 2 1 10 .above (9 / 200)
      (by norm_num) (by norm_num) (by norm_num) (by norm_num)).2.1⟩

/-- Claim C7 counterexample: at the money (spot = strike = 100) with
days = 365, the model's probability does not tend to 0.5 as the implied
volatility tends to 0 from above — it tends to 1, because the risk-free
drift term `r√T/iv` dominates `d2`. -/
theorem C7_counterexample :
    ¬ Tendsto
      (fun iv => (black_scholes_prob 100 100 iv 365 .above (9 / 200)).true_probability)
      (𝓝[>] 0) (𝓝 (1 / 2)) := by
  intro hcon
  have h1 := bs_atm_tendsto_one 100 365 (by norm_num) (by norm_num)
  have h : (1 : ℝ) = 1 / 2 := tendsto_nhds_unique h1 hcon
  norm_num at h

/-- Claim C7 (amended): for the at-the-money case spot = strike with
fixed valid days > 0 and the default risk-free rate 4.5%, the
probability tends to 1 (not 0.5) as iv tends to 0 from above; the value
0.5 arises only through the degenerate guard at iv ≤ 0. -/
theorem C7_bs_atm_iv_limit_amended (spot days : ℝ) (hs : 0 < spot) (hd : 0 < days) :
    Tendsto
      (fun iv => (black_scholes_prob spot spot iv days .above (9 / 200)).true_probability)
      (𝓝[>] 0) (𝓝 1) ∧
    (black_scholes_prob spot spot 0 days .above (9 / 200)).true_probability = 1 / 2 := by
  refine ⟨bs_atm_tendsto_one spot days hs hd, ?_⟩
  unfold black_scholes_prob
  rw [if_pos (Or.inr (Or.inr le_rfl))]

theorem kellySide_cases (bankroll true_prob poly_price : ℚ) (side : Side) :
    kellySide bankroll true_prob poly_price side = invalidKelly ∨
      5 ≤ (kellySide bankroll true_prob poly_price side).bet_amount := by
  unfold kellySide
  by_cases h : (match side with | .yes => poly_price | .no => 1 - poly_price) ≤ 0 ∨
      1 ≤ (match side with | .yes => poly_price | .no => 1 - poly_price) ∨
      (match side with | .yes => true_prob | .no => 1 - true_prob) ≤ 0
  · left
    rw [if_pos h]
  · right
    rw [if_neg h]
    dsimp only
    exact clamp_bet_lower _ _

theorem kellySide_bet_nonneg (bankroll true_prob poly_price : ℚ) (side : Side) :
    0 ≤ (kellySide bankroll true_prob poly_price side).bet_amount := by
  rcases kellySide_cases bankroll true_prob poly_price side with h | h
  · rw [h]
    norm_num [invalidKelly]
  · linarith

theorem kellySide_price_nonneg (bankroll true_prob poly_price : ℚ) (side : Side)
    {pr : ℚ} (h : (kellySide bankroll true_prob poly_price side).price = some pr) :
    0 ≤ pr := by
  unfold kellySide at h
  by_cases hg : (match side with | .yes => poly_price | .no => 1 - poly_price) ≤ 0 ∨
      1 ≤ (match side with | .yes => poly_price | .no => 1 - poly_price) ∨
      (match side with | .yes => true_prob | .no => 1 - true_prob) ≤ 0
  · rw [if_pos hg] at h
    simp [invalidKelly] at h
  · rw [if_neg hg] at h
    dsimp only at h
    push_neg at hg
    obtain ⟨h0, _, _⟩ := hg
    simp only [Option.some.injEq] at h
    rw [← h]
    exact pround_nonneg 4 (le_of_lt h0)

theorem kellySide_roi_nonneg (bankroll true_prob poly_price : ℚ) (side : Side)
    {r : ℚ} (h : (kellySide bankroll true_prob poly_price side).roi_if_win = some r) :
    0 ≤ r := by
  unfold kellySide at h
  by_cases hg : (match side with | .yes => poly_price | .no => 1 - poly_price) ≤ 0 ∨
      1 ≤ (match side with | .yes => poly_price | .no => 1 - poly_price) ∨
      (match side with | .yes => true_prob | .no => 1 - true_prob) ≤ 0
  · rw [if_pos hg] at h
    simp [invalidKelly] at h
  · rw [if_neg hg] at h
    dsimp only at h
    push_neg at hg
    obtain ⟨h0, h1, _⟩ := hg
    simp only [Option.some.injEq] at h
    rw [← h]
    apply pround_nonneg
    have hinv : 1 ≤ 1 / (match side with | .yes => poly_price | .no => 1 - poly_price) := by
      rw [le_div_iff₀ h0]
      linarith
    nlinarith

theorem candScore_nonneg (budget : ℚ) (m : Analysis) (side : Side)
    (hvol : 0 ≤ m.polymarket.volume)
    (hbet : 0 ≤ (m.kelly.side side).bet_amount)
    (hprice : ∀ pr, (m.kelly.side side).price = some pr → 0 ≤ pr)
    (hroi : ∀ r, (m.kelly.side side).roi_if_win = some r → 0 ≤ r) :
    0 ≤ candScore budget m side := by
  unfold candScore
  dsimp only
  have hp : 0 ≤ (m.kelly.side side).price.getD (1 / 2) := by
    cases hj : (m.kelly.side side).price with
    | none => norm_num
    | some pr => simpa using hprice pr hj
  have hr : 0 ≤ (m.kelly.side side).roi_if_win.getD 0 := by
    cases hj : (m.kelly.side side).roi_if_win with
    | none => norm_num
    | some r => simpa using hroi r hj
  refine add_nonneg (add_nonneg (add_nonneg (add_nonneg (add_nonneg ?_ ?_) ?_) ?_) ?_) ?_
  · exact mul_nonneg hp (by norm_num)
  · refine le_min ?_ (by norm_num)
    split_ifs with h
    · have := mul_nonneg (mul_nonneg hbet
        (div_nonneg hr (by norm_num : (0 : ℚ) ≤ 100))) hp
      positivity
    · norm_num
  · exact le_max_right _ _
  · split_ifs with h
    · exact le_refl 0
    · exact le_min (div_nonneg hvol (by norm_num)) (by norm_num)
  · split_ifs with h
    · exact le_min (div_nonneg hbet (by positivity)) (by norm_num)
    · exact le_refl 0
  · split_ifs <;> norm_num

theorem considerSide_isSome (budget : ℚ) (m : Analysis) (st : BestState)
    (side : Side) (h : st.best.isSome) :
    (considerSide budget m st side).best.isSome := by
  unfold considerSide
  dsimp only
  split_ifs with hgt
  · rfl
  · exact h

theorem considerSide_isSome_of_gt (budget : ℚ) (m : Analysis) (st : BestState)
    (side : Side) (h : st.best_score < candScore budget m side) :
    (considerSide budget m st side).best.isSome := by
  unfold considerSide
  dsimp only
  rw [if_pos h]
  rfl

theorem considerMarket_isSome (budget : ℚ) (st : BestState) (m : Analysis)
    (h : st.best.isSome) : (considerMarket budget st m).best.isSome := by
  unfold considerMarket
  simp only [List.foldl_cons, List.foldl_nil]
  exact considerSide_isSome _ _ _ _ (considerSide_isSome _ _ _ _ h)

theorem considerMarket_init_isSome (budget : ℚ) (m : Analysis)
    (h : 0 ≤ candScore budget m .yes) :
    (considerMarket budget { best_score := -999, best_ev := 0, best := none } m).best.isSome := by
  unfold considerMarket
  simp only [List.foldl_cons, List.foldl_nil]
  apply considerSide_isSome
  apply considerSide_isSome_of_gt
  show (-999 : ℚ) < candScore budget m .yes
  linarith

theorem foldl_considerMarket_isSome (budget : ℚ) (l : List Analysis)
    (st : BestState) (h : st.best.isSome) :
    (l.foldl (considerMarket budget) st).best.isSome := by
  induction l generalizing st with
  | nil => exact h
  | cons a t ih => exact ih _ (considerMarket_isSome _ _ _ h)

theorem considerSide_best_spec {P : Analysis × Side → Prop} (budget : ℚ)
    (m : Analysis) (st : BestState) (side : Side)
    (hst : ∀ pr, st.best = some pr → P pr) (hm : ∀ s, P (m, s)) :
    ∀ pr, (considerSide budget m st side).best = some pr → P pr := by
  unfold considerSide
  dsimp only
  split_ifs with hgt
  · intro pr hpr
    simp only [Option.some.injEq] at hpr
    rw [← hpr]
    exact hm side
  · exact hst

theorem considerMarket_best_spec {P : Analysis × Side → Prop} (budget : ℚ)
    (st : BestState) (m : Analysis)
    (hst : ∀ pr, st.best = some pr → P pr) (hm : ∀ s, P (m, s)) :
    ∀ pr, (considerMarket budget st m).best = some pr → P pr := by
  unfold considerMarket
  simp only [List.foldl_cons, List.foldl_nil]
  exact considerSide_best_spec _ _ _ _
    (considerSide_best_spec _ _ _ _ hst hm) hm

theorem foldl_best_spec {P : Analysis × Side → Prop} (budget : ℚ) :
    ∀ (l : List Analysis) (st : BestState),
      (∀ m ∈ l, ∀ s, P (m, s)) → (∀ pr, st.best = some pr → P pr) →
      ∀ pr, (l.foldl (considerMarket budget) st).best = some pr → P pr := by
  intro l
  induction l with
  | nil =>
    intro st _ hst
    exact hst
  | cons a t ih =>
    intro st hl hst
    exact ih _ (fun m hm s => hl m (List.mem_cons_of_mem _ hm) s)
      (considerMarket_best_spec _ _ _ hst (fun s => hl a (List.mem_cons_self _ _) s))

theorem selectLoop_best_spec {P : Analysis × Side → Prop} (budget : ℚ)
    (l : List Analysis) (hl : ∀ m ∈ l, ∀ s, P (m, s)) :
    ∀ pr, (selectLoop budget l).best = some pr → P pr := by
  unfold selectLoop
  refine foldl_best_spec budget l _ hl ?_
  intro pr hpr
  simp at hpr

theorem selectLoop_isSome (budget : ℚ) (a : Analysis) (t : List Analysis)
    (h : 0 ≤ candScore budget a .yes) :
    (selectLoop budget (a :: t)).best.isSome := by
  unfold selectLoop
  rw [List.foldl_cons]
  exact foldl_considerMarket_isSome budget t _ (considerMarket_init_isSome budget a h)

theorem mkStrategy_best (budget : ℚ) (analyses : List Analysis) (a : Analysis)
    (s : Side) (h : (selectLoop budget analyses).best = some (a, s)) :
    (mkStrategy budget analyses).best_market = some a.question ∧
    (mkStrategy budget analyses).best_side = some s ∧
    (mkStrategy budget analyses).position_pct = (a.kelly.side s).position_pct ∧
    (mkStrategy budget analyses).recommended_position =
      (if (a.kelly.side s).bet_amount ≤ 0 then pround 2 (budget * (5 / 100))
        else (a.kelly.side s).bet_amount) := by
  unfold mkStrategy
  dsimp only
  rw [h]
  dsimp only
  exact ⟨rfl, rfl, rfl, rfl⟩

theorem fallback_position_pos (budget : ℚ) (hb : 1 / 10 ≤ budget) :
    0 < pround 2 (budget * (5 / 100)) := by
  have h1 : (1 : ℚ) / 200 ≤ budget * (5 / 100) := by linarith
  have h2 := pround_mono (α := ℚ) 2 h1
  have h3 : pround 2 ((1 : ℚ) / 200) = 1 / 100 := by
    norm_num [pround, round_eq]
  rw [h3] at h2
  linarith

theorem kelly083_yes : kellySide 1000 (83 / 100) (83 / 100) .yes =
    { price := some (83 / 100), decimal_odds := some (6 / 5),
      true_prob := some (83 / 100), full_kelly_pct := some 0,
      aggressive_kelly_pct := some 20, kelly_pct := none, ev := none,
      reason := none, bet_amount := 200, ev_per_dollar := some 0,
      roi_if_win := some (512 / 25), position_pct := 20,
      confidence := "high" } := by
  unfold kellySide
  rw [if_neg (by norm_num)]
  dsimp only
  norm_num [pround, round_eq, min_def, max_def]

theorem kelly083_no : kellySide 1000 (83 / 100) (83 / 100) .no =
    { price := some (17 / 100), decimal_odds := some (147 / 25),
      true_prob := some (17 / 100), full_kelly_pct := some 0,
      aggressive_kelly_pct := some 5, kelly_pct := none, ev := none,
      reason := none, bet_amount := 50, ev_per_dollar := some 0,
      roi_if_win := some (12206 / 25), position_pct := 5,
      confidence := "low" } := by
  unfold kellySide
  rw [if_neg (by norm_num)]
  dsimp only
  norm_num [pround, round_eq, min_def, max_def]

theorem analysis083_kelly :
    analysis083.kelly = kelly_sizing 1000 (83 / 100) (83 / 100) := by
  unfold analysis083 analyzeMarket
  norm_num [market083]

theorem analysis083_vol : analysis083.polymarket.volume = 0 := rfl

theorem cand083_yes : candScore 1000 analysis083 .yes = 158124 / 3125 := by
  have hy : analysis083.kelly.side Side.yes =
      kellySide 1000 (83 / 100) (83 / 100) .yes := by
    rw [analysis083_kelly]
    rfl
  unfold candScore
  rw [hy, kelly083_yes, analysis083_vol]
  norm_num [min_def, max_def]

theorem cand083_no : candScore 1000 analysis083 .no = 323751 / 25000 := by
  have hn : analysis083.kelly.side Side.no =
      kellySide 1000 (83 / 100) (83 / 100) .no := by
    rw [analysis083_kelly]
    rfl
  unfold candScore
  rw [hn, kelly083_no, analysis083_vol]
  norm_num [min_def, max_def]

theorem sel083 : (selectLoop 1000 [analysis083]).best = some (analysis083, Side.yes) := by
  unfold selectLoop considerMarket considerSide
  simp only [List.foldl_cons, List.foldl_nil]
  rw [cand083_yes, cand083_no]
  norm_num

theorem pipeline083_analyses :
    pipelineAnalyses env083 (oneMarketEvent market083) 1000 = [analysis083] := by
  unfold pipelineAnalyses analysis083 pipelineSpot pipelineIv pipelineDays
    pipelineStock hasStrikes
  norm_num [env083, failingEnv, oneMarketEvent, market083, extract_ticker,
    tickerSearch, tickerAt]

theorem strategy083 :
    (pipelineResult env083 (oneMarketEvent market083) 1000).strategy.best_side =
      some Side.yes ∧
    (pipelineResult env083 (oneMarketEvent market083) 1000).strategy.recommended_position =
      200 := by
  have hstr : (pipelineResult env083 (oneMarketEvent market083) 1000).strategy =
      mkStrategy 1000 (pipelineAnalyses env083 (oneMarketEvent market083) 1000) := rfl
  rw [hstr, pipeline083_analyses]
  obtain ⟨_, hbs, _, hrp⟩ := mkStrategy_best 1000 [analysis083] analysis083 .yes sel083
  refine ⟨hbs, ?_⟩
  rw [hrp]
  have hbet : (analysis083.kelly.side Side.yes).bet_amount = 200 := by
    rw [show analysis083.kelly.side Side.yes =
        kellySide 1000 (83 / 100) (83 / 100) .yes from by rw [analysis083_kelly]; rfl,
      kelly083_yes]
  rw [hbet]
  norm_num

theorem kellyZero_yes : kellySide 1000 (1 / 2) 0 .yes = invalidKelly := by
  unfold kellySide
  rw [if_pos (by norm_num)]

theorem kellyZero_no : kellySide 1000 (1 / 2) 0 .no = invalidKelly := by
  unfold kellySide
  rw [if_pos (by norm_num)]

theorem analysisZero_kelly :
    analysisZero.kelly = kelly_sizing 1000 (1 / 2) 0 := by
  unfold analysisZero analyzeMarket
  norm_num [marketZero]

theorem analysisZero_vol : analysisZero.polymarket.volume = 0 := rfl

theorem candZero_yes : candScore 1000 analysisZero .yes = 23 := by
  have hy : analysisZero.kelly.side Side.yes = invalidKelly := by
    rw [show analysisZero.kelly.side Side.yes =
        kellySide 1000 (1 / 2) 0 .yes from by rw [analysisZero_kelly]; rfl,
      kellyZero_yes]
  unfold candScore
  rw [hy, analysisZero_vol]
  norm_num [invalidKelly, min_def, max_def]

theorem candZero_no : candScore 1000 analysisZero .no = 23 := by
  have hn : analysisZero.kelly.side Side.no = invalidKelly := by
    rw [show analysisZero.kelly.side Side.no =
        kellySide 1000 (1 / 2) 0 .no from by rw [analysisZero_kelly]; rfl,
      kellyZero_no]
  unfold candScore
  rw [hn, analysisZero_vol]
  norm_num [invalidKelly, min_def, max_def]

theorem selZero : (selectLoop 1000 [analysisZero]).best = some (analysisZero, Side.yes) := by
  unfold selectLoop considerMarket considerSide
  simp only [List.foldl_cons, List.foldl_nil]
  rw [candZero_yes, candZero_no]
  norm_num

theorem analysisZero_side_yes : analysisZero.kelly.side Side.yes = invalidKelly := by
  rw [show analysisZero.kelly.side Side.yes =
      kellySide 1000 (1 / 2) 0 .yes from by rw [analysisZero_kelly]; rfl,
    kellyZero_yes]

/-- Claim C5: for every event with at least one market having a side
with price in (0,1) (and nonnegative volumes, with a bankroll of at
least $0.10 so that 5% of it is a positive cent amount), the strategy
selector over the step-3 analyses selects a winner, and the strategy's
recommended position is strictly positive: it equals the selected side's
computed bet when that bet is positive, and defaults to `round(0.05 ×
bankroll, 2)` when the selected side's computed bet is ≤ 0; for the
example event with one market at yes price 0.83 and bankroll 1000, the
full pipeline recommends side YES with position $200 ≠ 0. -/
theorem C5_strategy_selector
    (oracle : ℚ → ℚ → ℚ → ℚ → ℚ) (spot iv days budget : ℚ)
    (has_strikes : Bool) (markets : List Market)
    (hvol : ∀ mk ∈ markets, 0 ≤ mk.volume)
    (hne : ∃ mk ∈ markets, 0 < mk.yes_price ∧ mk.yes_price < 1)
    (hb : 1 / 10 ≤ budget) :
    ((mkStrategy budget (markets.map
        (analyzeMarket oracle spot iv days budget has_strikes))).best_market.isSome ∧
      0 < (mkStrategy budget (markets.map
        (analyzeMarket oracle spot iv days budget has_strikes))).recommended_position ∧
      ∃ a s,
        (selectLoop budget (markets.map
          (analyzeMarket oracle spot iv days budget has_strikes))).best = some (a, s) ∧
        (mkStrategy budget (markets.map
          (analyzeMarket oracle spot iv days budget has_strikes))).best_side = some s ∧
        (mkStrategy budget (markets.map
          (analyzeMarket oracle spot iv days budget has_strikes))).recommended_position =
          (if (a.kelly.side s).bet_amount ≤ 0 then pround 2 (budget * (5 / 100))
            else (a.kelly.side s).bet_amount)) ∧
    ((pipelineResult env083 (oneMarketEvent market083) 1000).strategy.best_side =
        some Side.yes ∧
      (pipelineResult env083 (oneMarketEvent market083) 1000).strategy.recommended_position
        = 200) := by
  refine ⟨?_, strategy083⟩
  obtain ⟨mk0, hmk0, _⟩ := hne
  obtain ⟨m1, mt, rfl⟩ := List.exists_cons_of_ne_nil (List.ne_nil_of_mem hmk0)
  have hWF : ∀ a ∈ (m1 :: mt).map
      (analyzeMarket oracle spot iv days budget has_strikes),
      ∀ side, 0 ≤ candScore budget a side := by
    intro a ha side
    obtain ⟨mk, hmk, rfl⟩ := List.mem_map.1 ha
    have hk : (analyzeMarket oracle spot iv days budget has_strikes mk).kelly.side side =
        kellySide budget
          (analyzeMarket oracle spot iv days budget has_strikes mk).black_scholes.true_probability
          mk.yes_price side := by
      cases side <;> rfl
    refine candScore_nonneg budget _ side ?_ ?_ ?_ ?_
    · exact hvol mk hmk
    · rw [hk]
      exact kellySide_bet_nonneg _ _ _ _
    · intro pr hpr
      rw [hk] at hpr
      exact kellySide_price_nonneg _ _ _ _ hpr
    · intro r hr
      rw [hk] at hr
      exact kellySide_roi_nonneg _ _ _ _ hr
  have hsome : (selectLoop budget ((m1 :: mt).map
      (analyzeMarket oracle spot iv days budget has_strikes))).best.isSome := by
    have hhead := hWF (analyzeMarket oracle spot iv days budget has_strikes m1)
      (List.mem_map_of_mem _ (List.mem_cons_self m1 mt)) Side.yes
    rw [List.map_cons]
    exact selectLoop_isSome budget _ _ hhead
  obtain ⟨⟨a, s⟩, hbest⟩ := Option.isSome_iff_exists.1 hsome
  obtain ⟨hbm, hbs, _, hrp⟩ := mkStrategy_best budget _ a s hbest
  refine ⟨by rw [hbm]; rfl, ?_, a, s, hbest, hbs, hrp⟩
  rw [hrp]
  split_ifs with hle
  · exact fallback_position_pos budget hb
  · exact not_le.1 hle

/-- Claim C5 witness: the selector at the example event (one market at
0.83, bankroll 1000). -/
theorem C5_strategy_selector_witness :
    (mkStrategy 1000 ([market083].map
      (analyzeMarket (fun _ _ _ _ => 1 / 2) 0 (30 / 100) 7 1000 false))).best_market.isSome ∧
    0 < (mkStrategy 1000 ([market083].map
      (analyzeMarket (fun _ _ _ _ => 1 / 2) 0 (30 / 100) 7 1000 false))).recommended_position ∧
    (pipelineResult env083 (oneMarketEvent market083) 1000).strategy.recommended_position
      = 200 := by
  have h := C5_strategy_selector (fun _ _ _ _ => 1 / 2) 0 (30 / 100) 7 1000 false
    [market083]
    (by
      intro mk hmk
      rw [List.mem_singleton] at hmk
      rw [hmk]
      norm_num [market083])
    ⟨market083, List.mem_singleton.2 rfl, by norm_num [market083]⟩
    (by norm_num)
  exact ⟨h.1.1, h.1.2.1, h.2.2⟩

/-- Claim C10 (implicit): when the selected winning side's sizing result
was rejected, the assembled strategy reports `recommended_position =
round(0.05 × bankroll, 2)` but copies `position_pct` directly from the
rejected sizing result, which is 0, so `position_pct × bankroll` does
not reproduce the reported position. -/
theorem C10_rejected_winner_mismatch (budget : ℚ) (analyses : List Analysis)
    (a : Analysis) (s : Side)
    (hsel : (selectLoop budget analyses).best = some (a, s))
    (hinv : a.kelly.side s = invalidKelly)
    (hb : 1 / 10 ≤ budget) :
    (mkStrategy budget analyses).recommended_position = pround 2 (budget * (5 / 100)) ∧
    (mkStrategy budget analyses).position_pct = 0 ∧
    (mkStrategy budget analyses).position_pct * budget / 100 ≠
      (mkStrategy budget analyses).recommended_position := by
  obtain ⟨_, _, hpp, hrp⟩ := mkStrategy_best budget analyses a s hsel
  have hbet0 : (a.kelly.side s).bet_amount = 0 := by
    rw [hinv]
    rfl
  have h1 : (mkStrategy budget analyses).recommended_position =
      pround 2 (budget * (5 / 100)) := by
    rw [hrp, hbet0]
    norm_num
  have h2 : (mkStrategy budget analyses).position_pct = 0 := by
    rw [hpp, hinv]
    rfl
  refine ⟨h1, h2, ?_⟩
  rw [h1, h2]
  have hpos := fallback_position_pos budget hb
  intro hcon
  simp only [zero_mul, zero_div] at hcon
  exact absurd hcon.symm (ne_of_gt hpos)

/-- Claim C10 witness: the one-market event whose YES price is 0 — both
sizing results are rejected, the winner is its YES side, the reported
position is $50 (5% of 1000) while `position_pct` stays 0. -/
theorem C10_rejected_winner_mismatch_witness :
    (mkStrategy 1000 [analysisZero]).recommended_position =
      pround 2 (1000 * (5 / 100)) ∧
    (mkStrategy 1000 [analysisZero]).position_pct = 0 ∧
    (mkStrategy 1000 [analysisZero]).position_pct * 1000 / 100 ≠
      (mkStrategy 1000 [analysisZero]).recommended_position :=
  C10_rejected_winner_mismatch 1000 [analysisZero] analysisZero .yes selZero
    analysisZero_side_yes (by norm_num)

theorem applyUpdate_step (j : JobRec) (u : JobUpdate) :
    (applyUpdate j u).step = u.step.getD j.step := rfl

theorem scanl_step_chain (t : List JobUpdate) : ∀ (j : JobRec),
    List.Chain' (· ≤ ·) (j.step :: t.filterMap JobUpdate.step) →
    List.Chain' (· ≤ ·) ((t.scanl applyUpdate j).map JobRec.step) := by
  induction t with
  | nil =>
    intro j _
    simp [List.scanl]
  | cons u t' ih =>
    intro j h
    rw [List.scanl_cons, List.singleton_append, List.map_cons]
    rw [List.chain'_cons']
    have hstep : (applyUpdate j u).step = u.step.getD j.step := rfl
    have hhead : ∀ (j' : JobRec),
        ((t'.scanl applyUpdate j').map JobRec.step).head? = some j'.step := by
      intro j'
      cases t' <;> rfl
    cases hu : u.step with
    | none =>
      rw [List.filterMap_cons, hu] at h
      constructor
      · intro y hy
        rw [hhead] at hy
        simp only [Option.mem_def, Option.some.injEq] at hy
        rw [← hy, hstep, hu]
        exact le_rfl
      · apply ih
        rw [hstep, hu]
        exact h
    | some k =>
      rw [List.filterMap_cons, hu] at h
      rw [List.chain'_cons] at h
      constructor
      · intro y hy
        rw [hhead] at hy
        simp only [Option.mem_def, Option.some.injEq] at hy
        rw [← hy, hstep, hu]
        exact h.1
      · apply ih
        rw [hstep, hu]
        exact h.2

theorem progress_steps :
    progressUpdates.filterMap JobUpdate.step = [1, 2, 3, 4, 5, 6, 7, 8, 9, 10] := rfl

theorem progress_status_none : ∀ u ∈ progressUpdates, u.status = none := by
  intro u hu
  fin_cases hu <;> rfl

theorem chain_zero_take (k : ℕ) :
    List.Chain' (· ≤ ·)
      ((0 : ℕ) :: (progressUpdates.take k).filterMap JobUpdate.step) := by
  have hsplit : (progressUpdates.take k).filterMap JobUpdate.step ++
      (progressUpdates.drop k).filterMap JobUpdate.step =
      [1, 2, 3, 4, 5, 6, 7, 8, 9, 10] := by
    rw [← List.filterMap_append, List.take_append_drop]
    exact progress_steps
  have hch : List.Chain' (· ≤ ·)
      (((0 : ℕ) :: (progressUpdates.take k).filterMap JobUpdate.step) ++
        (progressUpdates.drop k).filterMap JobUpdate.step) := by
    rw [List.cons_append, hsplit]
    simp only [List.chain'_cons, List.chain'_singleton]
    norm_num
  exact hch.left_of_append

/-- Claim C1: for every run of the pipeline — fatal, completed, or
interrupted by an exception after any number of progress writes — the
job record's step is monotonically non-decreasing across the observable
states of the run; exactly one update writes a status, it is the last
update of the run, it is terminal (completed or error), and in a normal
run over a fetched event the steps written are 1 through 10 in order
(the final completed write repeats step 10) with final status
completed. -/
theorem C1_job_lifecycle (env : Env) (budget : ℚ) (crash : Option (ℕ × String)) :
    List.Chain' (· ≤ ·) ((jobStates env budget crash).map JobRec.step) ∧
    (∀ u ∈ (runTrace env budget crash).dropLast, u.status = none) ∧
    (∃ u, (runTrace env budget crash).getLast? = some u ∧
      (u.status = some .completed ∨ u.status = some .error)) ∧
    ((finalJob env budget crash).status = .completed ∨
      (finalJob env budget crash).status = .error) ∧
    (env.event.isSome → crash = none →
      (runTrace env budget crash).filterMap JobUpdate.step =
        [1, 2, 3, 4, 5, 6, 7, 8, 9, 10, 10] ∧
      (finalJob env budget crash).status = .completed) := by
  cases henv : env.event with
  | none =>
    have htr : runTrace env budget crash =
        [progressUpd 1 "Fetching Polymarket event data...",
         { status := some .error, error := some "Event not found" }] := by
      unfold runTrace
      rw [henv]
    unfold jobStates finalJob
    rw [htr]
    refine ⟨?_, ?_, ?_, Or.inr rfl, ?_⟩
    · apply scanl_step_chain
      show List.Chain' (· ≤ ·) [0, 1]
      simp only [List.chain'_cons, List.chain'_singleton]
      norm_num
    · intro u hu
      have hdl : ([progressUpd 1 "Fetching Polymarket event data...",
          ({ status := some .error, error := some "Event not found" } : JobUpdate)]).dropLast =
          [progressUpd 1 "Fetching Polymarket event data..."] := rfl
      rw [hdl, List.mem_singleton] at hu
      rw [hu]
      rfl
    · exact ⟨_, rfl, Or.inr rfl⟩
    · intro hev _
      simp at hev
  | some e =>
    cases crash with
    | none =>
      have htr : runTrace env budget none =
          progressUpdates ++
            [{ status := some .completed, step := some 10,
               step_label := some "Analysis complete!",
               result := some (pipelineResult env e budget) }] := by
        unfold runTrace
        rw [henv]
      unfold jobStates finalJob
      rw [htr]
      have hfm : (progressUpdates ++
          [({ status := some .completed, step := some 10,
              step_label := some "Analysis complete!",
              result := some (pipelineResult env e budget) } : JobUpdate)]).filterMap
            JobUpdate.step = [1, 2, 3, 4, 5, 6, 7, 8, 9, 10, 10] := by
        rw [List.filterMap_append, progress_steps]
        rfl
      refine ⟨?_, ?_, ?_, ?_, ?_⟩
      · apply scanl_step_chain
        rw [hfm]
        show List.Chain' (· ≤ ·) [0, 1, 2, 3, 4, 5, 6, 7, 8, 9, 10, 10]
        simp only [List.chain'_cons, List.chain'_singleton]
        norm_num
      · intro u hu
        rw [List.dropLast_concat] at hu
        exact progress_status_none u hu
      · exact ⟨_, List.getLast?_concat _, Or.inl rfl⟩
      · left
        rw [List.foldl_append]
        rfl
      · intro _ _
        constructor
        · exact hfm
        · rw [List.foldl_append]
          rfl
    | some km =>
      obtain ⟨k, msg⟩ := km
      have htr : runTrace env budget (some (k, msg)) =
          progressUpdates.take k ++
            [{ status := some .error, error := some msg }] := by
        unfold runTrace
        rw [henv]
      unfold jobStates finalJob
      rw [htr]
      refine ⟨?_, ?_, ?_, ?_, ?_⟩
      · apply scanl_step_chain
        rw [List.filterMap_append]
        have h0 : ([({ status := some JStatus.error, error := some msg } :
            JobUpdate)]).filterMap JobUpdate.step = [] := rfl
        rw [h0, List.append_nil]
        exact chain_zero_take k
      · intro u hu
        rw [List.dropLast_concat] at hu
        exact progress_status_none u (List.take_subset _ _ hu)
      · exact ⟨_, List.getLast?_concat _, Or.inr rfl⟩
      · right
        rw [List.foldl_append]
        rfl
      · intro _ hcr
        simp at hcr

/-- Claim C1 witness: a completed run over a fetched event writes steps
1 through 10 and finishes completed. -/
theorem C1_job_lifecycle_witness :
    (runTrace env083 1000 none).filterMap JobUpdate.step =
      [1, 2, 3, 4, 5, 6, 7, 8, 9, 10, 10] ∧
    (finalJob env083 1000 none).status = .completed :=
  (C1_job_lifecycle env083 1000 none).2.2.2.2 rfl rfl

/-- Claim C3: step-1 failure is the only fatal path — a missing event
makes the run write exactly the step-1 progress update and then the
error record (message "Event not found"), with no later step and no
result ever populated; every soft-step failure (equity quote, sports
odds, secondary venue, transfer scan, order book, report generator)
degrades to an empty or error-tagged sub-object inside the final result
while the run still completes. -/
theorem C3_failure_policy (env : Env) (budget : ℚ) :
    (env.event = none →
      runTrace env budget none =
        [progressUpd 1 "Fetching Polymarket event data...",
         { status := some .error, error := some "Event not found" }] ∧
      (finalJob env budget none).status = .error ∧
      (finalJob env budget none).error = some "Event not found" ∧
      (finalJob env budget none).result = none ∧
      (∀ u ∈ runTrace env budget none, ∀ k, u.step = some k → k ≤ 1)) ∧
    (∀ e, env.event = some e →
      (finalJob env budget none).status = .completed ∧
      (finalJob env budget none).result = some (pipelineResult env e budget) ∧
      (env.stock = none → (pipelineResult env e budget).stock_data = none) ∧
      (∀ msg, env.sports = .failure msg → is_sports_event e.event_title →
        (pipelineResult env e budget).sports_odds = .failure msg) ∧
      (∀ msg, env.kalshi = .exc msg →
        (pipelineResult env e budget).kalshi_comparison =
          { matching_markets_found := false, related_events := [],
            conclusion := "", error := some msg }) ∧
      (∀ msg, env.whale = .exc msg →
        (pipelineResult env e budget).whale_tracking = .failed msg) ∧
      ((∀ tok, env.books tok = .exc) →
        ∀ p ∈ (pipelineResult env e budget).orderbook_depth,
          p.2.yes = .failed ∧ p.2.no = .failed) ∧
      (∀ msg, env.report = .exc msg →
        (pipelineResult env e budget).claude_report =
          "AI report generation failed: " ++ msg)) := by
  constructor
  · intro henv
    have htr : runTrace env budget none =
        [progressUpd 1 "Fetching Polymarket event data...",
         { status := some .error, error := some "Event not found" }] := by
      unfold runTrace
      rw [henv]
    unfold finalJob
    rw [htr]
    refine ⟨rfl, rfl, rfl, rfl, ?_⟩
    intro u hu k hk
    rcases List.mem_cons.1 hu with h | h
    · rw [h] at hk
      have : (1 : ℕ) = k := by
        simpa [progressUpd] using hk
      omega
    · rw [List.mem_singleton] at h
      rw [h] at hk
      simp at hk
  · intro e henv
    have htr : runTrace env budget none =
        progressUpdates ++
          [{ status := some .completed, step := some 10,
             step_label := some "Analysis complete!",
             result := some (pipelineResult env e budget) }] := by
      unfold runTrace
      rw [henv]
    unfold finalJob
    rw [htr]
    refine ⟨by rw [List.foldl_append]; rfl, by rw [List.foldl_append]; rfl,
      ?_, ?_, ?_, ?_, ?_, ?_⟩
    · intro hst
      unfold pipelineResult pipelineStock
      dsimp only
      rw [hst]
      exact ite_self none
    · intro msg hm hsp
      unfold pipelineResult
      dsimp only
      rw [if_pos hsp, hm]
    · intro msg hm
      unfold pipelineResult fetch_kalshi_markets
      dsimp only
      rw [hm]
    · intro msg hm
      unfold pipelineResult fetch_whale_activity
      dsimp only
      rw [hm]
    · intro hb p hp
      unfold pipelineResult fetch_orderbook_depth at hp
      dsimp only at hp
      rw [List.mem_filterMap] at hp
      obtain ⟨mk, _, hmk⟩ := hp
      by_cases hlen : mk.clobTokenIds.length < 2
      · rw [if_pos hlen] at hmk
        simp at hmk
      · rw [if_neg hlen] at hmk
        simp only [Option.some.injEq] at hmk
        rw [← hmk]
        constructor
        · show bookEntryOf (env.books (mk.clobTokenIds.getD 0 "")) = .failed
          rw [hb]
          rfl
        · show bookEntryOf (env.books (mk.clobTokenIds.getD 1 "")) = .failed
          rw [hb]
          rfl
    · intro msg hm
      unfold pipelineResult generate_claude_report
      dsimp only
      rw [hm]

/-- Claim C3 witness: the fatal path at a missing event, and the fully
degraded soft path (every collector failing) still completing, with
error-tagged whale and report sub-objects. -/
theorem C3_failure_policy_witness :
    (finalJob (failingEnv none) 1000 none).status = .error ∧
    (finalJob (failingEnv none) 1000 none).result = none ∧
    (finalJob env083 1000 none).status = .completed ∧
    (pipelineResult env083 (oneMarketEvent market083) 1000).whale_tracking =
      .failed "etherscan down" ∧
    (pipelineResult env083 (oneMarketEvent market083) 1000).claude_report =
      "AI report generation failed: anthropic down" :=
  ⟨((C3_failure_policy (failingEnv none) 1000).1 rfl).2.1,
    ((C3_failure_policy (failingEnv none) 1000).1 rfl).2.2.2.1,
    ((C3_failure_policy env083 1000).2 (oneMarketEvent market083) rfl).1,
    ((C3_failure_policy env083 1000).2 (oneMarketEvent market083) rfl).2.2.2.2.2.1
      "etherscan down" rfl,
    ((C3_failure_policy env083 1000).2 (oneMarketEvent market083) rfl).2.2.2.2.2.2.2
      "anthropic down" rfl⟩

/-- Claim C7 witness: the amended limit at spot = 100, days = 365. -/
theorem C7_bs_atm_iv_limit_amended_witness :
    Tendsto
      (fun iv => (black_scholes_prob 100 100 iv 365 .above (9 / 200)).true_probability)
      (𝓝[>] 0) (𝓝 1) ∧
    (black_scholes_prob 100 100 0 365 .above (9 / 200)).true_probability = 1 / 2 :=
  C7_bs_atm_iv_limit_amended 100 365 (by norm_num) (by norm_num)

end PolyScalping
